import Mathlib

/-! # TofuLint plugin discovery (`plugin/discovery.go`)

A shallow embedding of the plugin host's discovery code and the properties
its specification states about it.

Modelling conventions:

* A Go `string` is a Lean `String`, a sequence of Unicode code points (the
  Go strings handled here are valid UTF-8, for which byte-wise substring
  search and code-point-wise substring search agree).
* A Go result pair `(v, err)` is a Lean pair whose second component is an
  `Option GoError`; `none` is the `nil` error.
* Calls that reach outside the program (the filesystem, the environment,
  the home-directory expansion, process start and RPC) are fields of a
  `World`; every function that performs such calls also returns the list of
  calls it made, in order.
-/

namespace TofuLint

/-! ## Go errors -/

/-- Error values that reach `plugin/discovery.go`. -/
inductive GoError where
  /-- The sentinel `os.ErrNotExist`. -/
  | ErrNotExist : GoError
  /-- A `syscall.Errno` value, with its number and its message. -/
  | Errno (code : Nat) (text : String) : GoError
  /-- A `*fs.PathError`, as returned by `os.Stat`. -/
  | PathError (op path : String) (err : GoError) : GoError
  /-- An error that only carries a message: `errors.New`, `fmt.Errorf`
  without a wrapping verb, and the errors of the RPC layer. -/
  | New (text : String) : GoError
  deriving DecidableEq, Repr

/-- The method `Error()` of an error value. -/
def GoError.Error : GoError → String
  | .ErrNotExist => "file does not exist"
  | .Errno _ text => text
  | .PathError op path err => op ++ " " ++ path ++ ": " ++ err.Error
  | .New text => text

/-! ## Package `strings` -/

namespace strings

/-- Substring test on character sequences. -/
def containsChars : List Char → List Char → Bool
  | [], sub => sub.isEmpty
  | c :: cs, sub => sub.isPrefixOf (c :: cs) || containsChars cs sub

/-- Go `strings.Contains(s, substr)`. -/
def Contains (s substr : String) : Bool :=
  containsChars s.data substr.data

/-- Replacement of every non-overlapping occurrence of a non-empty `old`,
scanning from the left. The counter is the number of characters of the
occurrence just replaced that are still to be skipped. -/
def replaceFrom (old new : List Char) : Nat → List Char → List Char
  | _, [] => []
  | k + 1, _ :: cs => replaceFrom old new k cs
  | 0, c :: cs =>
    if old.isPrefixOf (c :: cs) then new ++ replaceFrom old new (old.length - 1) cs
    else c :: replaceFrom old new 0 cs

/-- As `replaceFrom`, for at most `limit` occurrences. -/
def replaceUpTo (old new : List Char) : Nat → Nat → List Char → List Char
  | _, _, [] => []
  | limit, k + 1, _ :: cs => replaceUpTo old new limit k cs
  | 0, 0, c :: cs => c :: cs
  | limit + 1, 0, c :: cs =>
    if old.isPrefixOf (c :: cs) then new ++ replaceUpTo old new limit (old.length - 1) cs
    else c :: replaceUpTo old new (limit + 1) 0 cs

/-- Replacement of the empty string: `new` is inserted at the start and
after each character, at most `limit` times. -/
def insertUpTo (new : List Char) : Nat → List Char → List Char
  | 0, s => s
  | _ + 1, [] => new
  | limit + 1, c :: cs => new ++ c :: insertUpTo new limit cs

/-- Go `strings.Replace(s, old, new, n)`: the first `n` non-overlapping
occurrences of `old` are replaced by `new`, all of them when `n < 0`. -/
def Replace (s old new : String) (n : Int) : String :=
  if old = new ∨ n = 0 then s
  else if old.data = [] then
    ⟨insertUpTo new.data (if n < 0 then s.data.length + 1 else n.toNat) s.data⟩
  else if n < 0 then ⟨replaceFrom old.data new.data 0 s.data⟩
  else ⟨replaceUpTo old.data new.data n.toNat 0 s.data⟩

end strings

/-! ## Package `strconv` and the verb `%q` -/

namespace strconv

/-- The digit of `n % 16` in lower-case hexadecimal. -/
def lowerhex (n : Nat) : Char :=
  if n % 16 < 10 then Char.ofNat (48 + n % 16) else Char.ofNat (87 + n % 16)

/-- The `width` lower-case hexadecimal digits of `v`, most significant first. -/
def hexDigits : Nat → Nat → List Char
  | 0, _ => []
  | width + 1, v => lowerhex (v / 16 ^ width) :: hexDigits width v

/-- Go `strconv.IsPrint`. The answer for code points above U+00FF comes from
tables of the Go runtime, which are the parameter `wide`. -/
def IsPrint (wide : Char → Bool) (r : Char) : Bool :=
  if r.toNat ≤ 0xFF then
    if 0x20 ≤ r.toNat ∧ r.toNat < 0x7F then true
    else if 0xA1 ≤ r.toNat then r.toNat != 0xAD
    else false
  else wide r

/-- Go `strconv.appendEscapedRune` for the double quote, neither ASCII-only
nor graphic-only: the text that stands for the character `r` inside a quoted
string. -/
def appendEscapedRune (wide : Char → Bool) (r : Char) : List Char :=
  if r = Char.ofNat 34 ∨ r = Char.ofNat 92 then [Char.ofNat 92, r]
  else if IsPrint wide r then [r]
  else if r.toNat = 7 then [Char.ofNat 92, 'a']
  else if r.toNat = 8 then [Char.ofNat 92, 'b']
  else if r.toNat = 12 then [Char.ofNat 92, 'f']
  else if r.toNat = 10 then [Char.ofNat 92, 'n']
  else if r.toNat = 13 then [Char.ofNat 92, 'r']
  else if r.toNat = 9 then [Char.ofNat 92, 't']
  else if r.toNat = 11 then [Char.ofNat 92, 'v']
  else if r.toNat < 0x20 ∨ r.toNat = 0x7F then Char.ofNat 92 :: 'x' :: hexDigits 2 r.toNat
  else if r.toNat < 0x10000 then Char.ofNat 92 :: 'u' :: hexDigits 4 r.toNat
  else Char.ofNat 92 :: 'U' :: hexDigits 8 r.toNat

/-- Go `strconv.Quote`, which is what `fmt.Sprintf` prints for a string
under the verb `%q`. -/
def Quote (wide : Char → Bool) (s : String) : String :=
  ⟨Char.ofNat 34 :: (s.data.flatMap (appendEscapedRune wide) ++ [Char.ofNat 34])⟩

end strconv

/-! ## The configuration -/

/-- One declared plugin (`tofulint.PluginConfig`). `Name` and `Enabled` are
the fields `discovery.go` reads; `Version` and `Source` are the descriptors
used for path resolution. -/
structure PluginConfig where
  Name : String
  Enabled : Bool
  Version : String
  Source : String
  deriving DecidableEq, Repr

/-- The global configuration (`tofulint.Config`): the plugin directory
setting and the values of the map `Plugins`. -/
structure Config where
  PluginDir : String
  Plugins : List PluginConfig
  deriving DecidableEq, Repr

/-- The per-plugin view used to compute a path (`InstallConfig`). -/
structure InstallConfig where
  globalConfig : Config
  PluginConfig : PluginConfig
  deriving DecidableEq, Repr

/-- The constructor `NewInstallConfig`. -/
def NewInstallConfig (config : Config) (pluginCfg : PluginConfig) : InstallConfig :=
  ⟨config, pluginCfg⟩

/-! ## The world outside the program -/

/-- What `os.Stat` reports about an existing path. -/
structure FileInfo where
  IsDir : Bool
  deriving DecidableEq, Repr

/-- A command to run (`*exec.Cmd`). -/
structure Cmd where
  Path : String
  Args : List String
  deriving DecidableEq, Repr

/-- Go `exec.Command(name, arg...)`. -/
def exec.Command (name : String) (arg : List String) : Cmd := ⟨name, arg⟩

/-- The process handle of a plugin (`*plugin.Client`), made by
`host2plugin.NewClient` from the command to run. -/
structure PluginClient where
  Cmd : Cmd
  deriving DecidableEq, Repr

/-- Go `host2plugin.NewClient(&host2plugin.ClientOpts{Cmd: cmd})`. -/
def host2plugin.NewClient (cmd : Cmd) : PluginClient := ⟨cmd⟩

/-- The RPC connection to a started plugin (`plugin.ClientProtocol`). -/
structure ClientProtocol where
  id : Nat
  deriving DecidableEq, Repr

/-- The rule-set handle of a plugin (`*host2plugin.Client`). -/
structure RuleSet where
  id : Nat
  deriving DecidableEq, Repr

/-- A call that reaches outside the program. -/
inductive Event where
  | stat (path : String)
  | getenv (key : String)
  | expand (path : String)
  | executable
  | start (client : PluginClient)
  | dispense (rpc : ClientProtocol) (name : String)
  deriving DecidableEq, Repr

/-- Everything `discovery.go` uses and does not define itself. -/
structure World where
  /-- The constant `runtime.GOOS`. -/
  GOOS : String
  /-- Whether `syscall.Errno(code).Is(os.ErrNotExist)` on the target. -/
  errnoIsNotExist : Nat → Bool
  /-- The printability tables of `strconv` above U+00FF. -/
  isPrintWide : Char → Bool
  /-- Go `os.Stat`. -/
  Stat : String → Except GoError FileInfo
  /-- Go `os.Getenv`. -/
  Getenv : String → String
  /-- Go `homedir.Expand`. -/
  Expand : String → String × Option GoError
  /-- Go `filepath.Join` of two elements. -/
  Join : String → String → String
  /-- Go `os.Executable`. -/
  Executable : String × Option GoError
  /-- The package variable `localPluginRoot`. -/
  localPluginRoot : String
  /-- The package variable `PluginRoot`. -/
  PluginRoot : String
  /-- The method `(*InstallConfig).ManuallyInstalled`. -/
  ManuallyInstalled : InstallConfig → Bool
  /-- The method `(*InstallConfig).InstallPath`. -/
  InstallPath : InstallConfig → String
  /-- The method `Client()` of a process handle: starts the plugin process
  and performs the handshake. -/
  Client : PluginClient → Except GoError ClientProtocol
  /-- The method `Dispense(name)` of an RPC connection. -/
  Dispense : ClientProtocol → String → Except GoError RuleSet

/-- Go `os.IsNotExist`: the error, or the error directly inside a
`*fs.PathError`, is `os.ErrNotExist` or a `syscall.Errno` that reports a
missing file. -/
def os.IsNotExist (w : World) : Option GoError → Bool
  | none => false
  | some .ErrNotExist => true
  | some (.Errno code _) => w.errnoIsNotExist code
  | some (.PathError _ _ .ErrNotExist) => true
  | some (.PathError _ _ (.Errno code _)) => w.errnoIsNotExist code
  | some (.PathError _ _ _) => false
  | some (.New _) => false

/-! ## `plugin/discovery.go` -/

/-- The function `checkPluginExistance`. -/
def checkPluginExistance (w : World) (path : String) :
    (String × Option GoError) × List Event :=
  match w.Stat path with
  | .error err => (("", some err), [Event.stat path])
  | .ok info =>
    -- directory is invalid as a plugin path
    if info.IsDir then (("", some GoError.ErrNotExist), [Event.stat path])
    else ((path, none), [Event.stat path])

/-- The function `findPluginPath`. -/
def findPluginPath (w : World) (path : String) :
    (String × Option GoError) × List Event :=
  if w.GOOS ≠ "windows" then checkPluginExistance w path
  else
    let r := checkPluginExistance w path
    if os.IsNotExist w r.1.2 then
      let r2 := checkPluginExistance w (path ++ ".exe")
      (r2.1, r.2 ++ r2.2)
    else r

/-- The function `getPluginDir`. -/
def getPluginDir (w : World) (cfg : Config) :
    (String × Option GoError) × List Event :=
  if cfg.PluginDir ≠ "" then (w.Expand cfg.PluginDir, [Event.expand cfg.PluginDir])
  else
    let dir := w.Getenv "TOFULINT_PLUGIN_DIR"
    if dir ≠ "" then ((dir, none), [Event.getenv "TOFULINT_PLUGIN_DIR"])
    else
      let err : Option GoError :=
        match w.Stat w.localPluginRoot with
        | .error e => some e
        | .ok _ => none
      if os.IsNotExist w err then
        (w.Expand w.PluginRoot,
          [Event.getenv "TOFULINT_PLUGIN_DIR", Event.stat w.localPluginRoot,
            Event.expand w.PluginRoot])
      else
        ((w.localPluginRoot, err),
          [Event.getenv "TOFULINT_PLUGIN_DIR", Event.stat w.localPluginRoot])

/-- The function `FindPluginPath`. -/
def FindPluginPath (w : World) (config : InstallConfig) :
    (String × Option GoError) × List Event :=
  let d := getPluginDir w config.globalConfig
  match d.1.2 with
  | some err => (("", some err), d.2)
  | none =>
    let r := findPluginPath w (w.Join d.1.1 (w.InstallPath config))
    match r.1.2 with
    | some err => (("", some err), d.2 ++ r.2)
    | none => ((r.1.1, none), d.2 ++ r.2)

/-- The search string of `pluginClientError`. -/
def search : String := "Incompatible API version with plugin."

/-- The text that `pluginClientError` puts in place of `search`: the result
of its `fmt.Sprintf` call. -/
def replacement (w : World) (name : String) : String :=
  "TofuLint is not compatible with this version of the " ++ strconv.Quote w.isPrintWide name
    ++ " plugin. A newer TofuLint or plugin version may be required."

/-- The function `pluginClientError`. -/
def pluginClientError (w : World) (err : Option GoError) (config : PluginConfig) :
    Option GoError :=
  match err with
  | none => none
  | some e =>
    let message := e.Error
    if strings.Contains message search then
      some (GoError.New (strings.Replace message search (replacement w config.Name) (-1)))
    else some e

/-- A Go map with string keys: whether it is the `nil` map, and its entries
(at most one per key). -/
structure GoMap (V : Type) where
  isNil : Bool
  entries : List (String × V)
  deriving DecidableEq, Repr

/-- The map literal without entries, which is not `nil`. -/
def GoMap.make {V : Type} : GoMap V := ⟨false, []⟩

/-- The assignment `m[key] = v` on a map that is not `nil`. -/
def GoMap.set {V : Type} (m : GoMap V) (key : String) (v : V) : GoMap V :=
  ⟨m.isNil, m.entries.filter (fun e => e.1 != key) ++ [(key, v)]⟩

/-- The lookup `m[key]`. -/
def GoMap.get {V : Type} (m : GoMap V) (key : String) : Option V :=
  (m.entries.find? (fun e => e.1 == key)).map Prod.snd

/-- The keys of a map. -/
def GoMap.keys {V : Type} (m : GoMap V) : List String :=
  m.entries.map Prod.fst

/-- The registry of started plugins (`Plugin`). -/
structure Plugin where
  RuleSets : GoMap RuleSet
  clients : GoMap PluginClient
  deriving DecidableEq, Repr

/-- The two maps that the loop of `Discovery` fills. -/
structure Started where
  clients : GoMap PluginClient
  rulesets : GoMap RuleSet
  deriving DecidableEq, Repr

/-- The first half of the loop body of `Discovery`: the choice of the
command to run for one plugin entry. `Except.error err` is the statement
`return nil, err` of `Discovery`. -/
def pluginCommand (w : World) (config : Config) (pluginCfg : PluginConfig) :
    Except (Option GoError) Cmd × List Event :=
  let installCfg := NewInstallConfig config pluginCfg
  let found := FindPluginPath w installCfg
  let pluginPath := found.1.1
  if os.IsNotExist w found.1.2 then
    if pluginCfg.Name = "terraform" ∧ w.ManuallyInstalled installCfg then
      match w.Executable with
      | (_, some err) => (.error (some err), found.2 ++ [Event.executable])
      | (self, none) =>
        (.ok (exec.Command self ["--act-as-bundled-plugin"]), found.2 ++ [Event.executable])
    else
      if w.ManuallyInstalled installCfg then
        let d := getPluginDir w config
        match d.1.2 with
        | some err => (.error (some err), found.2 ++ d.2)
        | none =>
          (.error (some (GoError.New
            ("Plugin \"" ++ pluginCfg.Name ++ "\" not found in " ++ d.1.1))), found.2 ++ d.2)
      else
        (.error (some (GoError.New
          ("Plugin \"" ++ pluginCfg.Name ++ "\" not found. Did you run \"tofulint --init\"?"))),
          found.2)
  else (.ok (exec.Command pluginPath []), found.2)

/-- The second half of the loop body of `Discovery`: an enabled plugin is
started and its rule set is stored; a disabled one is skipped.
`Except.error err` is the statement `return nil, err` of `Discovery`. -/
def launch (w : World) (pluginCfg : PluginConfig) (cmd : Cmd) (st : Started) :
    Except (Option GoError) Started × List Event :=
  if pluginCfg.Enabled then
    let client := host2plugin.NewClient cmd
    match w.Client client with
    | .error err => (.error (pluginClientError w (some err) pluginCfg), [Event.start client])
    | .ok rpcClient =>
      match w.Dispense rpcClient "ruleset" with
      | .error err =>
        (.error (some err), [Event.start client, Event.dispense rpcClient "ruleset"])
      | .ok ruleset =>
        (.ok ⟨st.clients.set pluginCfg.Name client, st.rulesets.set pluginCfg.Name ruleset⟩,
          [Event.start client, Event.dispense rpcClient "ruleset"])
  else (.ok st, [])

/-- The loop of `Discovery` over the plugin entries, in the order in which
the `range` over the map yields them. -/
def discoveryLoop (w : World) (config : Config) :
    List PluginConfig → Started → Except (Option GoError) Started × List Event
  | [], st => (.ok st, [])
  | pluginCfg :: rest, st =>
    let c := pluginCommand w config pluginCfg
    match c.1 with
    | .error err => (.error err, c.2)
    | .ok cmd =>
      let l := launch w pluginCfg cmd st
      match l.1 with
      | .error err => (.error err, c.2 ++ l.2)
      | .ok st1 =>
        let r := discoveryLoop w config rest st1
        (r.1, c.2 ++ l.2 ++ r.2)

/-- The function `Discovery`. Go leaves the order of a `range` over a map
open; `order` is the sequence in which the values of `config.Plugins` are
visited. -/
def Discovery (w : World) (config : Config) (order : List PluginConfig) :
    (Option Plugin × Option GoError) × List Event :=
  let r := discoveryLoop w config order ⟨GoMap.make, GoMap.make⟩
  match r.1 with
  | .error err => ((none, err), r.2)
  | .ok st => ((some ⟨st.rulesets, st.clients⟩, none), r.2)

/-! ## Auxiliary definitions and example hosts -/

/-- The text for one character of a quoted string is the character itself, or
starts with a backslash and has no `I` after it. -/
def EscapedShape (r : Char) (l : List Char) : Prop :=
  l = [r] ∨ ∃ rest, l = Char.ofNat 92 :: rest ∧ 'I' ∉ rest

/-- A Linux host for the examples: the plugin directory comes from the
environment, and the only file in it is the binary of the plugin `aws`. -/
def linuxWorld : World where
  GOOS := "linux"
  errnoIsNotExist := fun code => code == 2
  isPrintWide := fun _ => true
  Stat := fun path =>
    if path = "/plugins/tflint-ruleset-aws" then .ok ⟨false⟩
    else if path = "/plugins/tflint-ruleset-dir" then .ok ⟨true⟩
    else .error (.PathError "stat" path (.Errno 2 "no such file or directory"))
  Getenv := fun key => if key = "TOFULINT_PLUGIN_DIR" then "/plugins" else ""
  Expand := fun path => (path, none)
  Join := fun dir file => dir ++ "/" ++ file
  Executable := ("/usr/bin/tofulint", none)
  localPluginRoot := "./.tofulint.d/plugins"
  PluginRoot := "~/.tofulint.d/plugins"
  ManuallyInstalled := fun c => c.PluginConfig.Version == "" && c.PluginConfig.Source == ""
  InstallPath := fun c => "tflint-ruleset-" ++ c.PluginConfig.Name
  Client := fun c =>
    if c.Cmd.Path = "/plugins/tflint-ruleset-aws" then .ok ⟨1⟩
    else if c.Cmd.Path = "/usr/bin/tofulint" then .ok ⟨2⟩
    else .error (.New "fork/exec: no such file or directory")
  Dispense := fun rpc _ => .ok ⟨rpc.id⟩

/-- A Linux host without `TOFULINT_PLUGIN_DIR`, in a project that has a
local plugin directory. -/
def localWorld : World :=
  { linuxWorld with
    Getenv := fun _ => ""
    Stat := fun path =>
      if path = "./.tofulint.d/plugins" then .ok ⟨true⟩
      else .error (.PathError "stat" path (.Errno 2 "no such file or directory")) }

/-- A Linux host without `TOFULINT_PLUGIN_DIR` and without a local plugin
directory. -/
def homeWorld : World :=
  { linuxWorld with
    Getenv := fun _ => ""
    Expand := fun _ => ("/home/user/.tofulint.d/plugins", none)
    Stat := fun path => .error (.PathError "stat" path (.Errno 2 "no such file or directory")) }

/-- A Windows host: the binary of the plugin `aws` has the suffix `.exe`,
and next to the directory `tflint-ruleset-dir` there is a file of the same
name with the suffix `.exe`. -/
def windowsWorld : World :=
  { linuxWorld with
    GOOS := "windows"
    errnoIsNotExist := fun code => code == 2 || code == 3
    Stat := fun path =>
      if path = "/plugins/tflint-ruleset-aws.exe" then .ok ⟨false⟩
      else if path = "/plugins/tflint-ruleset-dir" then .ok ⟨true⟩
      else if path = "/plugins/tflint-ruleset-dir.exe" then .ok ⟨false⟩
      else .error (.PathError "CreateFile" path (.Errno 2 "The system cannot find the file specified.")) }

/-- A Linux host on which the plugin `aws` completes the handshake and then
fails the request for its rule set. -/
def dispenseFailsWorld : World :=
  { linuxWorld with
    Dispense := fun _ _ => .error (.New "Incompatible API version with plugin. Plugin version: 10") }

/-- A Linux host on which the handshake of every plugin fails with the
version error of the RPC layer. -/
def handshakeFailsWorld : World :=
  { linuxWorld with
    Client := fun _ =>
      .error (.New "Incompatible API version with plugin. Plugin version: 10, Client versions: [11]") }

/-- Go `filepath.IsAbs` on a Unix target: the path starts with a slash. -/
def filepath.IsAbs (path : String) : Bool :=
  path.data.head? == some '/'

/-- A Linux host on which the plugin directory cannot be read: every
`os.Stat` fails with `EACCES`. -/
def permissionWorld : World :=
  { linuxWorld with
    Stat := fun path => .error (.PathError "stat" path (.Errno 13 "permission denied")) }

/-- A Linux host on which `TOFULINT_PLUGIN_DIR` is the relative directory
`plugins`, which holds the binary of the plugin `aws`. -/
def relativeWorld : World :=
  { linuxWorld with
    Getenv := fun key => if key = "TOFULINT_PLUGIN_DIR" then "plugins" else ""
    Stat := fun path =>
      if path = "plugins/tflint-ruleset-aws" then .ok ⟨false⟩
      else .error (.PathError "stat" path (.Errno 2 "no such file or directory")) }

/-- What the body of the loop of `Discovery` does with one plugin entry:
`some err` when it returns `nil, err`, `none` when the loop goes on. The maps
filled so far have no part in it. -/
def entryOutcome (w : World) (config : Config) (pluginCfg : PluginConfig) :
    Option (Option GoError) :=
  match (pluginCommand w config pluginCfg).1 with
  | .error err => some err
  | .ok cmd =>
    match (launch w pluginCfg cmd ⟨GoMap.make, GoMap.make⟩).1 with
    | .error err => some err
    | .ok _ => none

/-- A Linux host on which the home directory cannot be found: every
`homedir.Expand` fails. -/
def expandFailsWorld : World :=
  { linuxWorld with
    Expand := fun _ => ("", some (.New "cannot expand user-specific home dir")) }

/-- What the body of the loop of `Discovery` stores under the name of an
enabled plugin entry when it does not return: the process handle made from
the command of the entry and the rule set that the plugin dispenses. -/
def entryHandles (w : World) (config : Config) (pluginCfg : PluginConfig) :
    Option (PluginClient × RuleSet) :=
  match (pluginCommand w config pluginCfg).1 with
  | .error _ => none
  | .ok cmd =>
    match w.Client (host2plugin.NewClient cmd) with
    | .error _ => none
    | .ok rpcClient =>
      match w.Dispense rpcClient "ruleset" with
      | .error _ => none
      | .ok ruleset => some (host2plugin.NewClient cmd, ruleset)

/-- Go `strings.Join` on character sequences: the elements of the list with
`sep` between them. -/
def strings.joinChars (sep : List Char) : List (List Char) → List Char
  | [] => []
  | [t] => t
  | t :: u :: rest => t ++ sep ++ strings.joinChars sep (u :: rest)

/-! ## The aggregator and formatter

The packages `tofulint`, `formatter` and `cmd` of the repository; the
definitions of this section follow the specification of the aggregator and
formatter, and the cases of `formatter/sarif_test.go` and
`integrationtest/cli/cli_test.go` are checked against them. -/

/-- Modelled from the spec: the ordered enumeration of severities
{ERROR, WARNING, NOTICE}. -/
inductive Severity where
  | ERROR
  | WARNING
  | NOTICE
  deriving DecidableEq, Repr

/-- Modelled from the spec: the place of a severity in the order; `ERROR` is
the highest. -/
def Severity.rank : Severity → Nat
  | .ERROR => 2
  | .WARNING => 1
  | .NOTICE => 0

/-- Modelled from the spec: the level label of a severity in the interchange
format: ERROR is "error", WARNING is "warning", NOTICE is "note". -/
def Severity.level : Severity → String
  | .ERROR => "error"
  | .WARNING => "warning"
  | .NOTICE => "note"

/-- Modelled from the spec: the capability set of a rule
{Name, Enabled, Severity, Link}. -/
structure Rule where
  Name : String
  Enabled : Bool
  Severity : Severity
  Link : String
  deriving DecidableEq, Repr

/-- Modelled from the spec: a source position, with 1-indexed line and column
and a byte offset. -/
structure hcl.Pos where
  Line : Nat
  Column : Nat
  Byte : Nat
  deriving DecidableEq, Repr

/-- Modelled from the spec: a position is absent when it is the zero
value. -/
def hcl.Pos.absent (p : hcl.Pos) : Bool :=
  p.Line == 0 && p.Column == 0 && p.Byte == 0

/-- Modelled from the spec: a source range, a file name with a start and an
end position. -/
structure hcl.Range where
  Filename : String
  Start : hcl.Pos
  End : hcl.Pos
  deriving DecidableEq, Repr

/-- Modelled from the spec: one rule violation. -/
structure Issue where
  Rule : Rule
  Message : String
  Range : hcl.Range
  deriving DecidableEq, Repr

/-- Modelled from the spec: the severity of a tuple of a structured
diagnostics bundle. -/
inductive hcl.DiagnosticSeverity where
  | DiagError
  | DiagWarning
  deriving DecidableEq, Repr

/-- Modelled from the spec: the level label of the severity of a
diagnostic. -/
def hcl.DiagnosticSeverity.level : hcl.DiagnosticSeverity → String
  | .DiagError => "error"
  | .DiagWarning => "warning"

/-- Modelled from the spec: one (severity, summary, detail, range) tuple of a
structured diagnostics bundle. -/
structure hcl.Diagnostic where
  Severity : hcl.DiagnosticSeverity
  Summary : String
  Detail : String
  Subject : hcl.Range
  deriving DecidableEq, Repr

/-- Modelled from the spec: a host-level failure, with a message and,
optionally, the tuples of a structured diagnostics bundle. -/
structure ExecutionError where
  Message : String
  Diagnostics : Option (List hcl.Diagnostic)
  deriving DecidableEq, Repr

/-- Modelled from the spec: the three values of the process exit status. -/
inductive ExitStatus where
  | ExitCodeOK
  | ExitCodeError
  | ExitCodeIssuesFound
  deriving DecidableEq, Repr

/-- Modelled from the spec: whether an issue is at or above the
minimum-failure-severity threshold. -/
def meetsThreshold (threshold : Severity) (issue : Issue) : Bool :=
  decide (threshold.rank ≤ issue.Rule.Severity.rank)

/-- Modelled from the spec: the exit status. An execution error gives
"error"; otherwise an issue at or above the threshold gives "issues found",
which the force mode turns into OK; otherwise OK. -/
def exitStatus (issues : List Issue) (err : Option ExecutionError) (threshold : Severity)
    (force : Bool) : ExitStatus :=
  match err with
  | some _ => .ExitCodeError
  | none =>
    if issues.any (meetsThreshold threshold) then
      if force then .ExitCodeOK else .ExitCodeIssuesFound
    else .ExitCodeOK

/-- Modelled from the spec: one run of the command line: the report that the
formatter `render` makes of the issues and the error, and the exit status.
The force mode has no part in the report. -/
def cliRun {Report : Type} (render : List Issue → Option ExecutionError → Report)
    (issues : List Issue) (err : Option ExecutionError) (threshold : Severity)
    (force : Bool) : Report × ExitStatus :=
  (render issues err, exitStatus issues err threshold force)

/-- Modelled from the spec: the region of a location of the interchange
format; a field that is `none` is not emitted. -/
structure SarifRegion where
  startLine : Option Nat
  startColumn : Option Nat
  endLine : Option Nat
  endColumn : Option Nat
  byteOffset : Option Nat
  byteLength : Option Nat
  deriving DecidableEq, Repr

/-- Modelled from the spec: a location: the file reference and, when there is
a position, a region. -/
structure SarifLocation where
  uri : String
  region : Option SarifRegion
  deriving DecidableEq, Repr

/-- Modelled from the spec: one entry of a results array: the rule id, the
level label, the message and the locations. -/
structure SarifResult where
  ruleId : String
  level : String
  message : String
  locations : List SarifLocation
  deriving DecidableEq, Repr

/-- Modelled from the spec: one result group of the report. -/
structure SarifRun where
  name : String
  results : List SarifResult
  deriving DecidableEq, Repr

/-- Modelled from the spec: the rendered report: the result groups. -/
structure SarifReport where
  runs : List SarifRun
  deriving DecidableEq, Repr

/-- Modelled from the spec: the region of the range of an issue. Without an
end position only the start fields are given; without a start position there
is no region. -/
def issueRegion (r : hcl.Range) : Option SarifRegion :=
  if r.Start.absent then none
  else if r.End.absent then
    some ⟨some r.Start.Line, some r.Start.Column, none, none, none, none⟩
  else
    some ⟨some r.Start.Line, some r.Start.Column, some r.End.Line, some r.End.Column,
      none, none⟩

/-- Modelled from the spec: the result of an issue: the name of its rule, the
level label of the severity of the rule, its message and one location. -/
def issueResult (issue : Issue) : SarifResult :=
  { ruleId := issue.Rule.Name
    level := issue.Rule.Severity.level
    message := issue.Message
    locations := [⟨issue.Range.Filename, issueRegion issue.Range⟩] }

/-- Modelled from the spec: the entry of one tuple of a diagnostics bundle,
with the severity and the range of the tuple. -/
def diagnosticResult (d : hcl.Diagnostic) : SarifResult :=
  { ruleId := d.Summary
    level := d.Severity.level
    message := d.Detail
    locations := [⟨d.Subject.Filename,
      some ⟨some d.Subject.Start.Line, some d.Subject.Start.Column,
        some d.Subject.End.Line, some d.Subject.End.Column,
        some d.Subject.Start.Byte, some (d.Subject.End.Byte - d.Subject.Start.Byte)⟩⟩] }

/-- Modelled from the spec: the entries of the tool-errors section: one per
tuple when the error wraps a diagnostics bundle, otherwise a single entry
with a fixed identifier and the message of the error. -/
def errorResults : Option ExecutionError → List SarifResult
  | none => []
  | some err =>
    match err.Diagnostics with
    | some diags => diags.map diagnosticResult
    | none => [⟨"application_error", "error", err.Message, []⟩]

/-- Modelled from the spec: the report in the interchange format: the
section of the issues, in the order in which the aggregator gives them, and
the parallel section of the tool errors. -/
def sarifPrint (issues : List Issue) (err : Option ExecutionError) : SarifReport :=
  ⟨[⟨"tofulint", issues.map issueResult⟩, ⟨"tofulint-errors", errorResults err⟩]⟩

/-- The rule of the tests of the formatter. -/
def testRule : Rule :=
  ⟨"test_rule", true, .ERROR, "https://github.com"⟩

set_option maxRecDepth 100000

/-! ## Lists: occurrences of a pattern -/

theorem prefix_append_cases {α : Type} {p x y : List α} (h : p <+: x ++ y) :
    p <+: x ∨ ∃ v, v ≠ [] ∧ p = x ++ v ∧ v <+: y := by
  rcases List.prefix_or_prefix_of_prefix h (List.prefix_append x y) with h1 | h1
  · exact Or.inl h1
  · obtain ⟨v, rfl⟩ := h1
    by_cases hv : v = []
    · subst hv
      left
      simp
    · right
      exact ⟨v, hv, rfl, (List.prefix_append_right_inj x).1 h⟩

theorem infix_append_cases {α : Type} {p y : List α} :
    ∀ {x : List α}, p <:+: x ++ y →
      p <:+: x ∨ p <:+: y ∨ ∃ u v, u ≠ [] ∧ v ≠ [] ∧ p = u ++ v ∧ u <:+ x ∧ v <+: y
  | [], h => Or.inr (Or.inl (by simpa using h))
  | a :: x, h => by
    rw [List.cons_append, List.infix_cons_iff] at h
    rcases h with h | h
    · rw [← List.cons_append] at h
      rcases prefix_append_cases h with h1 | ⟨v, hv, hp, hvy⟩
      · exact Or.inl h1.isInfix
      · exact Or.inr (Or.inr ⟨a :: x, v, by simp, hv, hp, List.suffix_refl _, hvy⟩)
    · rcases infix_append_cases h with h1 | h1 | ⟨u, v, hu, hv, hp, hux, hvy⟩
      · exact Or.inl (List.infix_cons h1)
      · exact Or.inr (Or.inl h1)
      · exact Or.inr (Or.inr ⟨u, v, hu, hv, hp, (List.suffix_cons_iff.2 (Or.inr hux)), hvy⟩)

theorem head_mem_of_prefix_ne_nil {α : Type} {a : α} {p' u v : List α}
    (hp : a :: p' = u ++ v) (hu : u ≠ []) : a ∈ u := by
  cases u with
  | nil => exact absurd rfl hu
  | cons b u' =>
    simp only [List.cons_append, List.cons.injEq] at hp
    simp [hp.1]

theorem strings.containsChars_iff (s sub : List Char) :
    strings.containsChars s sub = true ↔ sub <:+: s := by
  induction s with
  | nil => simp [strings.containsChars, List.isEmpty_iff]
  | cons c cs ih =>
    simp [strings.containsChars, List.infix_cons_iff, ih]

/-! ## `strings.Replace`: what the result contains -/

theorem strings.replaceFrom_zero_cons (old new : List Char) (c : Char) (cs : List Char) :
    strings.replaceFrom old new 0 (c :: cs) =
      if old <+: c :: cs then new ++ strings.replaceFrom old new (old.length - 1) cs
      else c :: strings.replaceFrom old new 0 cs := by
  simp [strings.replaceFrom]

/-- A text without the first character of `new` that starts the result of a
replacement also starts the original. -/
theorem strings.prefix_of_prefix_replaceFrom (old : List Char) (t : Char) (new' : List Char) :
    ∀ (s u : List Char), t ∉ u → u <+: strings.replaceFrom old (t :: new') 0 s → u <+: s
  | [], u, _, h => by simpa [strings.replaceFrom] using h
  | c :: cs, [], _, _ => List.nil_prefix
  | c :: cs, x :: u, ht, h => by
    rw [strings.replaceFrom_zero_cons] at h
    split at h
    · rw [List.cons_append, List.cons_prefix_cons] at h
      exact absurd (by simp [h.1]) ht
    · rw [List.cons_prefix_cons] at h ⊢
      refine ⟨h.1, strings.prefix_of_prefix_replaceFrom old t new' cs u ?_ h.2⟩
      intro hm
      exact ht (List.mem_cons_of_mem _ hm)

/-- After every occurrence of `a :: p` has been replaced by `t :: r`, no
occurrence is left, provided that `t` is not a character of the pattern,
that the pattern does not occur in the replacement, and that the replacement
ends with a text `b`, at least as long as `p`, without the character `a`. -/
theorem strings.not_infix_replaceFrom (a t : Char) (p r r1 b : List Char)
    (ht : t ∉ a :: p) (hr : ¬ (a :: p) <:+: t :: r) (hb : t :: r = r1 ++ b)
    (hlen : p.length ≤ b.length) (hab : a ∉ b) :
    ∀ (s : List Char) (k : Nat), ¬ (a :: p) <:+: strings.replaceFrom (a :: p) (t :: r) k s
  | [], k => by simp [strings.replaceFrom]
  | c :: cs, k + 1 => by
    simpa [strings.replaceFrom] using
      strings.not_infix_replaceFrom a t p r r1 b ht hr hb hlen hab cs k
  | c :: cs, 0 => by
    rw [strings.replaceFrom_zero_cons]
    split
    · intro h
      rcases infix_append_cases h with h1 | h1 | ⟨u, v, hu, hv, hp, hux, _⟩
      · exact hr h1
      · exact strings.not_infix_replaceFrom a t p r r1 b ht hr hb hlen hab cs _ h1
      · have hau : a ∈ u := head_mem_of_prefix_ne_nil hp hu
        have hlu : u.length ≤ b.length := by
          have h1 : (a :: p).length = u.length + v.length := by rw [hp, List.length_append]
          have h2 : 0 < v.length := List.length_pos.2 hv
          simp only [List.length_cons] at h1
          omega
        have hub : u <:+ b := by
          rw [hb] at hux
          exact List.suffix_of_suffix_length_le hux (List.suffix_append r1 b) hlu
        exact hab (hub.subset hau)
    · rename_i hnp
      intro h
      rw [List.infix_cons_iff] at h
      rcases h with h | h
      · have h2 : (a :: p) <+: strings.replaceFrom (a :: p) (t :: r) 0 (c :: cs) := by
          rw [strings.replaceFrom_zero_cons, if_neg hnp]
          exact h
        exact hnp (strings.prefix_of_prefix_replaceFrom (a :: p) t r (c :: cs) (a :: p) ht h2)
      · exact strings.not_infix_replaceFrom a t p r r1 b ht hr hb hlen hab cs 0 h

/-- When `old` occurs in `s`, the result of the replacement contains `new`. -/
theorem strings.infix_replaceFrom (old new : List Char) (hold : old ≠ []) :
    ∀ (s : List Char), old <:+: s → new <:+: strings.replaceFrom old new 0 s
  | [], h => absurd (List.infix_nil.1 h) hold
  | c :: cs, h => by
    rw [strings.replaceFrom_zero_cons]
    split
    · exact (List.prefix_append _ _).isInfix
    · rename_i hnp
      rw [List.infix_cons_iff] at h
      rcases h with h | h
      · exact absurd h hnp
      · exact List.infix_cons (strings.infix_replaceFrom old new hold cs h)

/-- A replacement by a longer text does not shorten. -/
theorem strings.length_replaceFrom_ge (old new : List Char) (hold : 0 < old.length)
    (hlen : old.length ≤ new.length) :
    ∀ (s : List Char) (k : Nat), s.length ≤ (strings.replaceFrom old new k s).length + k
  | [], k => by simp [strings.replaceFrom]
  | c :: cs, k + 1 => by
    have := strings.length_replaceFrom_ge old new hold hlen cs k
    simp only [strings.replaceFrom, List.length_cons]
    omega
  | c :: cs, 0 => by
    rw [strings.replaceFrom_zero_cons]
    split
    · have := strings.length_replaceFrom_ge old new hold hlen cs (old.length - 1)
      simp only [List.length_append, List.length_cons]
      omega
    · have := strings.length_replaceFrom_ge old new hold hlen cs 0
      simp only [List.length_cons]
      omega

/-- A replacement by a strictly longer text lengthens a text in which `old`
occurs. -/
theorem strings.length_replaceFrom_gt (old new : List Char) (hold : 0 < old.length)
    (hlen : old.length < new.length) :
    ∀ (s : List Char), old <:+: s → s.length < (strings.replaceFrom old new 0 s).length
  | [], h => by
    have := List.infix_nil.1 h
    subst this
    simp at hold
  | c :: cs, h => by
    rw [strings.replaceFrom_zero_cons]
    split
    · have := strings.length_replaceFrom_ge old new hold (Nat.le_of_lt hlen) cs (old.length - 1)
      simp only [List.length_append, List.length_cons]
      omega
    · rename_i hnp
      rw [List.infix_cons_iff] at h
      rcases h with h | h
      · exact absurd h hnp
      · have := strings.length_replaceFrom_gt old new hold hlen cs h
        simp only [List.length_cons]
        omega

/-! ## `strconv.Quote`: where a pattern can occur in a quoted string -/

theorem strconv.lowerhex_ne_I (n : Nat) : strconv.lowerhex n ≠ 'I' := by
  have h : n % 16 < 16 := Nat.mod_lt _ (by decide)
  unfold strconv.lowerhex
  generalize n % 16 = m at h
  interval_cases m <;> decide

theorem strconv.I_not_mem_hexDigits (width v : Nat) : 'I' ∉ strconv.hexDigits width v := by
  induction width with
  | zero => simp [strconv.hexDigits]
  | succ k ih =>
    simp only [strconv.hexDigits, List.mem_cons, not_or]
    exact ⟨fun h => strconv.lowerhex_ne_I _ h.symm, ih⟩

theorem ite_ind {α : Type} {c : Prop} {inst : Decidable c} (q : α → Prop) {a b : α}
    (ha : c → q a) (hb : ¬ c → q b) : q (@ite α c inst a b) := by
  split
  · exact ha ‹_›
  · exact hb ‹_›

theorem strconv.appendEscapedRune_shape (wide : Char → Bool) (r : Char) :
    EscapedShape r (strconv.appendEscapedRune wide r) := by
  have hx : ∀ (x : Char) (w n : Nat), x ≠ 'I' → 'I' ∉ x :: strconv.hexDigits w n := by
    intro x w n hx
    simp only [List.mem_cons, not_or]
    exact ⟨fun h => hx h.symm, strconv.I_not_mem_hexDigits _ _⟩
  unfold strconv.appendEscapedRune
  refine ite_ind (EscapedShape r) (fun h1 => Or.inr ⟨[r], rfl, ?_⟩) (fun _ => ?_)
  · rcases h1 with h | h <;> subst h <;> decide
  refine ite_ind (EscapedShape r) (fun _ => Or.inl rfl) (fun _ => ?_)
  refine ite_ind (EscapedShape r) (fun _ => Or.inr ⟨_, rfl, by decide⟩) (fun _ => ?_)
  refine ite_ind (EscapedShape r) (fun _ => Or.inr ⟨_, rfl, by decide⟩) (fun _ => ?_)
  refine ite_ind (EscapedShape r) (fun _ => Or.inr ⟨_, rfl, by decide⟩) (fun _ => ?_)
  refine ite_ind (EscapedShape r) (fun _ => Or.inr ⟨_, rfl, by decide⟩) (fun _ => ?_)
  refine ite_ind (EscapedShape r) (fun _ => Or.inr ⟨_, rfl, by decide⟩) (fun _ => ?_)
  refine ite_ind (EscapedShape r) (fun _ => Or.inr ⟨_, rfl, by decide⟩) (fun _ => ?_)
  refine ite_ind (EscapedShape r) (fun _ => Or.inr ⟨_, rfl, by decide⟩) (fun _ => ?_)
  refine ite_ind (EscapedShape r) (fun _ => Or.inr ⟨_, rfl, hx _ _ _ (by decide)⟩) (fun _ => ?_)
  refine ite_ind (EscapedShape r) (fun _ => Or.inr ⟨_, rfl, hx _ _ _ (by decide)⟩) (fun _ => ?_)
  exact Or.inr ⟨_, rfl, hx _ _ _ (by decide)⟩

theorem strconv.appendEscapedRune_cases (wide : Char → Bool) (r : Char) :
    strconv.appendEscapedRune wide r = [r] ∨
      ∃ rest, strconv.appendEscapedRune wide r = Char.ofNat 92 :: rest ∧ 'I' ∉ rest :=
  strconv.appendEscapedRune_shape wide r

/-- A text without a backslash that starts the quoted characters of `s`
starts `s`. -/
theorem strconv.prefix_of_prefix_escaped (wide : Char → Bool) :
    ∀ (s u : List Char), Char.ofNat 92 ∉ u →
      u <+: s.flatMap (strconv.appendEscapedRune wide) → u <+: s
  | _, [], _, _ => List.nil_prefix
  | [], x :: u, _, h => by simp at h
  | c :: cs, x :: u, hu, h => by
    rw [List.flatMap_cons] at h
    rcases strconv.appendEscapedRune_cases wide c with hc | ⟨rest, hc, _⟩
    · rw [hc, List.singleton_append, List.cons_prefix_cons] at h
      rw [List.cons_prefix_cons]
      refine ⟨h.1, strconv.prefix_of_prefix_escaped wide cs u ?_ h.2⟩
      intro hm
      exact hu (List.mem_cons_of_mem _ hm)
    · rw [hc, List.cons_append, List.cons_prefix_cons] at h
      exact absurd (by simp [h.1]) hu

/-- A pattern that starts with `I` and has no backslash occurs in the quoted
characters of `s` only where it occurs in `s`. -/
theorem strconv.infix_of_infix_escaped (wide : Char → Bool) (p : List Char)
    (hp : Char.ofNat 92 ∉ 'I' :: p) :
    ∀ (s : List Char), ('I' :: p) <:+: s.flatMap (strconv.appendEscapedRune wide) →
      ('I' :: p) <:+: s
  | [], h => by simp at h
  | c :: cs, h => by
    rw [List.flatMap_cons] at h
    rcases strconv.appendEscapedRune_cases wide c with hc | ⟨rest, hc, hrest⟩
    · rw [hc, List.singleton_append, List.infix_cons_iff] at h
      rcases h with h | h
      · have h2 : ('I' :: p) <+: (c :: cs).flatMap (strconv.appendEscapedRune wide) := by
          rw [List.flatMap_cons, hc]
          exact h
        exact (strconv.prefix_of_prefix_escaped wide (c :: cs) _ hp h2).isInfix
      · exact List.infix_cons (strconv.infix_of_infix_escaped wide p hp cs h)
    · rw [hc, List.cons_append, List.infix_cons_iff] at h
      rcases h with h | h
      · rw [List.cons_prefix_cons] at h
        exact absurd h.1 (by decide)
      · rcases infix_append_cases h with h1 | h1 | ⟨u, v, hu, _, huv, hux, _⟩
        · exact absurd (h1.subset (List.mem_cons_self _ _)) hrest
        · exact List.infix_cons (strconv.infix_of_infix_escaped wide p hp cs h1)
        · exact absurd (hux.subset (head_mem_of_prefix_ne_nil huv hu)) hrest

/-- The quoted characters of a text in which every character stands for
itself are the text. -/
theorem strconv.escaped_eq_self (wide : Char → Bool) :
    ∀ (s : List Char), (∀ c ∈ s, strconv.appendEscapedRune wide c = [c]) →
      s.flatMap (strconv.appendEscapedRune wide) = s
  | [], _ => rfl
  | c :: cs, h => by
    rw [List.flatMap_cons, h c (List.mem_cons_self _ _), List.singleton_append,
      strconv.escaped_eq_self wide cs (fun d hd => h d (List.mem_cons_of_mem _ hd))]

/-! ## The search string and its replacement -/

theorem mem_of_suffix_concat {α : Type} {q : α} {u x : List α}
    (h : u <:+ x ++ [q]) (hu : u ≠ []) : q ∈ u := by
  rcases List.eq_nil_or_concat u with h0 | ⟨u', l, rfl⟩
  · exact absurd h0 hu
  · obtain ⟨t, ht⟩ := h
    rw [List.concat_eq_append, ← List.append_assoc] at ht
    have := List.append_inj_right' ht rfl
    simp only [List.cons.injEq, and_true] at this
    simp [this]

theorem mem_of_prefix_singleton {α : Type} {q : α} {v : List α}
    (h : v <+: [q]) (hv : v ≠ []) : q ∈ v := by
  cases v with
  | nil => exact absurd rfl hv
  | cons x v' =>
    rw [List.cons_prefix_cons] at h
    simp [h.1]

theorem search_data : search.data = 'I' :: "ncompatible API version with plugin.".data := rfl

theorem replacement_data (w : World) (name : String) :
    (replacement w name).data =
      'T' :: ("ofuLint is not compatible with this version of the ".data ++
        ((Char.ofNat 34 :: (name.data.flatMap (strconv.appendEscapedRune w.isPrintWide) ++
          [Char.ofNat 34])) ++
          " plugin. A newer TofuLint or plugin version may be required.".data)) := rfl

/-- The search string occurs in the replacement text only when it occurs in
the plugin name. -/
theorem search_not_infix_replacement (w : World) (name : String)
    (h : ¬ search.data <:+: name.data) : ¬ search.data <:+: (replacement w name).data := by
  have hI : 'I' ∈ search.data := by rw [search_data]; exact List.mem_cons_self _ _
  have hq : Char.ofNat 34 ∉ search.data := by decide
  have hbs : Char.ofNat 92 ∉ search.data := by decide
  rw [replacement_data, ← List.cons_append]
  intro hp
  rcases infix_append_cases hp with h1 | h1 | ⟨u, v, hu, _, huv, hux, _⟩
  · exact absurd (h1.subset hI) (by decide)
  · rcases infix_append_cases h1 with h2 | h2 | ⟨u, v, hu, _, huv, hux, _⟩
    · rw [List.infix_cons_iff] at h2
      rcases h2 with h3 | h3
      · rw [search_data, List.cons_prefix_cons] at h3
        exact absurd h3.1 (by decide)
      · rcases infix_append_cases h3 with h4 | h4 | ⟨u, v, _, hv, huv, _, hvx⟩
        · rw [search_data] at h4 hbs h
          exact h (strconv.infix_of_infix_escaped _ _ hbs _ h4)
        · exact absurd (h4.subset hI) (by decide)
        · apply hq
          rw [huv]
          exact List.mem_append_right _ (mem_of_prefix_singleton hvx hv)
    · exact absurd (h2.subset hI) (by decide)
    · apply hq
      rw [huv]
      rw [← List.cons_append] at hux
      exact List.mem_append_left _ (mem_of_suffix_concat hux hu)
  · rw [search_data] at huv
    exact absurd (hux.subset (head_mem_of_prefix_ne_nil huv hu)) (by decide)

/-- Once `strings.Replace` has put the replacement text for every occurrence
of the search string, the search string occurs only where the plugin name
brought it in. -/
theorem search_not_infix_replaceFrom (w : World) (name : String) (s : List Char)
    (h : ¬ search.data <:+: name.data) :
    ¬ search.data <:+: strings.replaceFrom search.data (replacement w name).data 0 s := by
  have hr := search_not_infix_replacement w name h
  rw [replacement_data] at hr ⊢
  rw [search_data] at hr ⊢
  refine strings.not_infix_replaceFrom 'I' 'T' _ _
    (['T'] ++ ("ofuLint is not compatible with this version of the ".data ++
      (Char.ofNat 34 :: (name.data.flatMap (strconv.appendEscapedRune w.isPrintWide) ++
          [Char.ofNat 34]))))
    " plugin. A newer TofuLint or plugin version may be required.".data
    (by decide) hr ?_ (by decide) (by decide) s 0
  simp

theorem Replace_search_data (w : World) (name message : String) :
    (strings.Replace message search (replacement w name) (-1)).data =
      strings.replaceFrom search.data (replacement w name).data 0 message.data := by
  have h1 : search ≠ replacement w name := by
    intro h
    have := congrArg String.data h
    rw [search_data, replacement_data] at this
    exact absurd (List.cons.inj this).1 (by decide)
  have h2 : search.data ≠ [] := by rw [search_data]; simp
  simp [strings.Replace, h1, h2]

/-! ## Claims about `pluginClientError` -/

theorem pluginClientError_of_contains (w : World) (err : GoError) (config : PluginConfig)
    (h : strings.Contains err.Error search = true) :
    pluginClientError w (some err) config =
      some (GoError.New (strings.Replace err.Error search (replacement w config.Name) (-1))) := by
  simp [pluginClientError, h]

theorem quote_infix_replacement (w : World) (name : String) :
    (strconv.Quote w.isPrintWide name).data <:+: (replacement w name).data := by
  rw [replacement_data]
  exact ⟨'T' :: "ofuLint is not compatible with this version of the ".data,
    " plugin. A newer TofuLint or plugin version may be required.".data, by simp [strconv.Quote]⟩

theorem name_infix_quote (w : World) (name : String)
    (h : ∀ c ∈ name.data,
      c ≠ Char.ofNat 34 ∧ c ≠ Char.ofNat 92 ∧ strconv.IsPrint w.isPrintWide c = true) :
    name.data <:+: (strconv.Quote w.isPrintWide name).data := by
  have hs : name.data.flatMap (strconv.appendEscapedRune w.isPrintWide) = name.data := by
    apply strconv.escaped_eq_self
    intro c hc
    obtain ⟨h1, h2, h3⟩ := h c hc
    simp [strconv.appendEscapedRune, h1, h2, h3]
  exact ⟨[Char.ofNat 34], [Char.ofNat 34], by simp [strconv.Quote, hs]⟩

/-- C3 (as amended): for an error whose message contains the phrase
"Incompatible API version with plugin.", `pluginClientError` returns a new
error whose message contains the plugin name as Go quotes it (`%q`); it
contains the name itself when every character of the name is printable and
is neither a double quote nor a backslash; and it does not contain the phrase
when the plugin name does not contain it. -/
theorem pluginClientError_rewrites_mismatch (w : World) (err : GoError)
    (config : PluginConfig) (h : strings.Contains err.Error search = true) :
    ∃ msg, pluginClientError w (some err) config = some (GoError.New msg) ∧
      strings.Contains msg (strconv.Quote w.isPrintWide config.Name) = true ∧
      ((∀ c ∈ config.Name.data, c ≠ Char.ofNat 34 ∧ c ≠ Char.ofNat 92 ∧
          strconv.IsPrint w.isPrintWide c = true) →
        strings.Contains msg config.Name = true) ∧
      (strings.Contains config.Name search = false → strings.Contains msg search = false) := by
  refine ⟨_, pluginClientError_of_contains w err config h, ?_, ?_, ?_⟩
  · rw [strings.Contains, strings.containsChars_iff, Replace_search_data]
    rw [strings.Contains, strings.containsChars_iff] at h
    exact (quote_infix_replacement w config.Name).trans
      (strings.infix_replaceFrom _ _ (by rw [search_data]; simp) _ h)
  · intro hplain
    rw [strings.Contains, strings.containsChars_iff, Replace_search_data]
    rw [strings.Contains, strings.containsChars_iff] at h
    exact ((name_infix_quote w config.Name hplain).trans
      (quote_infix_replacement w config.Name)).trans
      (strings.infix_replaceFrom _ _ (by rw [search_data]; simp) _ h)
  · intro hname
    rw [← Bool.not_eq_true, strings.Contains, strings.containsChars_iff] at hname ⊢
    rw [Replace_search_data]
    exact search_not_infix_replaceFrom w config.Name _ hname

theorem pluginClientError_rewrites_mismatch_witness :
    strings.Contains
        (GoError.New
          "Incompatible API version with plugin. Plugin version: 10, Client versions: [11]").Error
        search = true ∧
      ∃ msg, pluginClientError linuxWorld
          (some (GoError.New
            "Incompatible API version with plugin. Plugin version: 10, Client versions: [11]"))
          ⟨"aws", true, "0.21.0", "github.com/terraform-linters/tflint-ruleset-aws"⟩ =
            some (GoError.New msg) ∧
        strings.Contains msg (strconv.Quote linuxWorld.isPrintWide "aws") = true ∧
        strings.Contains msg "aws" = true ∧
        strings.Contains msg search = false :=
  ⟨by decide,
    match pluginClientError_rewrites_mismatch linuxWorld
        (GoError.New
          "Incompatible API version with plugin. Plugin version: 10, Client versions: [11]")
        ⟨"aws", true, "0.21.0", "github.com/terraform-linters/tflint-ruleset-aws"⟩
        (by decide) with
    | ⟨msg, h1, h2, h3, h4⟩ => ⟨msg, h1, h2, h3 (by decide), h4 (by decide)⟩⟩

/-- C3 (as stated) fails: with a plugin named like the phrase, the message
that `pluginClientError` returns still contains the phrase; and with the
plugin name that has a double quote in it the returned message does not
contain the name. -/
theorem pluginClientError_rewrites_mismatch_counterexample :
    strings.Contains (GoError.New "Incompatible API version with plugin.").Error search = true ∧
      (pluginClientError linuxWorld (some (GoError.New "Incompatible API version with plugin."))
          ⟨"Incompatible API version with plugin.", true, "", ""⟩).map
        (fun e => strings.Contains e.Error search) = some true ∧
      (pluginClientError linuxWorld (some (GoError.New "Incompatible API version with plugin."))
          ⟨"a\"b", true, "", ""⟩).map
        (fun e => strings.Contains e.Error "a\"b") = some false := by
  refine ⟨by decide, by decide, by decide⟩

/-- C4: an error whose message does not contain the phrase "Incompatible API
version with plugin." is returned by `pluginClientError` as it is, for every
plugin config. -/
theorem pluginClientError_keeps_other_errors (w : World) (err : GoError)
    (config : PluginConfig) (h : strings.Contains err.Error search = false) :
    pluginClientError w (some err) config = some err := by
  simp [pluginClientError, h]

theorem pluginClientError_keeps_other_errors_witness :
    strings.Contains (GoError.New "connection is shut down").Error search = false ∧
      pluginClientError linuxWorld (some (GoError.New "connection is shut down"))
          ⟨"aws", true, "", ""⟩ = some (GoError.New "connection is shut down") :=
  ⟨by decide, pluginClientError_keeps_other_errors linuxWorld _ _ (by decide)⟩

/-! ## Claims about the path resolver -/

theorem append_exe_ne (path : String) : path ++ ".exe" ≠ path := by
  intro h
  have h1 := congrArg String.length h
  rw [String.length_append] at h1
  have h2 : ".exe".length = 4 := by decide
  omega

theorem checkPluginExistance_trace (w : World) (path : String) :
    (checkPluginExistance w path).2 = [Event.stat path] := by
  unfold checkPluginExistance
  split
  · rfl
  · split <;> rfl

theorem checkPluginExistance_path (w : World) (path : String) :
    (checkPluginExistance w path).1 = (path, none) ∨
      ∃ e, (checkPluginExistance w path).1 = ("", some e) := by
  unfold checkPluginExistance
  split
  · exact Or.inr ⟨_, rfl⟩
  · split
    · exact Or.inr ⟨_, rfl⟩
    · exact Or.inl rfl

/-- C6: `getPluginDir` returns the first applicable directory: the
tilde-expansion of `plugin_dir` when it is not empty; otherwise the value of
`TOFULINT_PLUGIN_DIR` when it is not empty; otherwise the local plugin root
when `os.Stat` finds it; otherwise, when the local root does not exist, the
tilde-expansion of the home plugin root. -/
theorem getPluginDir_precedence (w : World) (cfg : Config) :
    (cfg.PluginDir ≠ "" → (getPluginDir w cfg).1 = w.Expand cfg.PluginDir) ∧
    (cfg.PluginDir = "" → w.Getenv "TOFULINT_PLUGIN_DIR" ≠ "" →
      (getPluginDir w cfg).1 = (w.Getenv "TOFULINT_PLUGIN_DIR", none)) ∧
    (cfg.PluginDir = "" → w.Getenv "TOFULINT_PLUGIN_DIR" = "" →
      ∀ info, w.Stat w.localPluginRoot = .ok info →
        (getPluginDir w cfg).1 = (w.localPluginRoot, none)) ∧
    (cfg.PluginDir = "" → w.Getenv "TOFULINT_PLUGIN_DIR" = "" →
      ∀ e, w.Stat w.localPluginRoot = .error e → os.IsNotExist w (some e) = true →
        (getPluginDir w cfg).1 = w.Expand w.PluginRoot) := by
  refine ⟨?_, ?_, ?_, ?_⟩
  · intro h
    simp [getPluginDir, h]
  · intro h1 h2
    simp [getPluginDir, h1, h2]
  · intro h1 h2 info h3
    simp [getPluginDir, h1, h2, h3, os.IsNotExist]
  · intro h1 h2 e h3 h4
    simp [getPluginDir, h1, h2, h3, h4]

theorem getPluginDir_precedence_witness :
    (getPluginDir linuxWorld ⟨"~/plugins", []⟩).1 = linuxWorld.Expand "~/plugins" ∧
    (getPluginDir linuxWorld ⟨"", []⟩).1 = ("/plugins", none) ∧
    (getPluginDir localWorld ⟨"", []⟩).1 = ("./.tofulint.d/plugins", none) ∧
    (getPluginDir homeWorld ⟨"", []⟩).1 = ("/home/user/.tofulint.d/plugins", none) :=
  ⟨(getPluginDir_precedence linuxWorld ⟨"~/plugins", []⟩).1 (by decide),
    (getPluginDir_precedence linuxWorld ⟨"", []⟩).2.1 rfl (by decide),
    (getPluginDir_precedence localWorld ⟨"", []⟩).2.2.1 rfl rfl ⟨true⟩ rfl,
    (getPluginDir_precedence homeWorld ⟨"", []⟩).2.2.2 rfl rfl _ rfl rfl⟩

/-- C7: when `plugin_dir` is empty and `TOFULINT_PLUGIN_DIR` is set (to a
value that is not empty, which is how `os.Getenv` shows that it is set),
`getPluginDir` returns exactly that value and no error, and its only call is
the read of the variable: the filesystem is not consulted. Every world that
gives the variable the same value, whatever its filesystem, home directory
and plugin roots, gives the same result. -/
theorem getPluginDir_env_verbatim (w : World) (cfg : Config) (hdir : cfg.PluginDir = "")
    (henv : w.Getenv "TOFULINT_PLUGIN_DIR" ≠ "") :
    getPluginDir w cfg =
        ((w.Getenv "TOFULINT_PLUGIN_DIR", none), [Event.getenv "TOFULINT_PLUGIN_DIR"]) ∧
      ∀ w1 : World, w1.Getenv "TOFULINT_PLUGIN_DIR" = w.Getenv "TOFULINT_PLUGIN_DIR" →
        getPluginDir w1 cfg = getPluginDir w cfg := by
  have h : ∀ w1 : World, w1.Getenv "TOFULINT_PLUGIN_DIR" = w.Getenv "TOFULINT_PLUGIN_DIR" →
      getPluginDir w1 cfg =
        ((w.Getenv "TOFULINT_PLUGIN_DIR", none), [Event.getenv "TOFULINT_PLUGIN_DIR"]) := by
    intro w1 h1
    simp [getPluginDir, hdir, h1, henv]
  exact ⟨h w rfl, fun w1 h1 => (h w1 h1).trans (h w rfl).symm⟩

theorem getPluginDir_env_verbatim_witness :
    (⟨"", []⟩ : Config).PluginDir = "" ∧ linuxWorld.Getenv "TOFULINT_PLUGIN_DIR" ≠ "" ∧
      (getPluginDir linuxWorld ⟨"", []⟩ =
          ((linuxWorld.Getenv "TOFULINT_PLUGIN_DIR", none),
            [Event.getenv "TOFULINT_PLUGIN_DIR"]) ∧
        ∀ w1 : World,
          w1.Getenv "TOFULINT_PLUGIN_DIR" = linuxWorld.Getenv "TOFULINT_PLUGIN_DIR" →
            getPluginDir w1 ⟨"", []⟩ = getPluginDir linuxWorld ⟨"", []⟩) :=
  ⟨rfl, by decide, getPluginDir_env_verbatim linuxWorld ⟨"", []⟩ rfl (by decide)⟩

theorem findPluginPath_not_windows_eq (w : World) (path : String) (h : w.GOOS ≠ "windows") :
    findPluginPath w path = checkPluginExistance w path := by
  simp [findPluginPath, h]

/-- C8: on a target other than Windows, `findPluginPath` is the check of the
bare path: its only call is `os.Stat` of that path, a failure of that call is
returned as it is (whatever exists at the path with ".exe" appended), and the
returned path is never the path with ".exe" appended. -/
theorem findPluginPath_not_windows (w : World) (path : String) (h : w.GOOS ≠ "windows") :
    findPluginPath w path = checkPluginExistance w path ∧
      (findPluginPath w path).2 = [Event.stat path] ∧
      (∀ e, w.Stat path = .error e → (findPluginPath w path).1 = ("", some e)) ∧
      (findPluginPath w path).1.1 ≠ path ++ ".exe" := by
  have h0 := findPluginPath_not_windows_eq w path h
  refine ⟨h0, ?_, ?_, ?_⟩
  · rw [h0, checkPluginExistance_trace]
  · intro e he
    rw [h0]
    simp [checkPluginExistance, he]
  · rw [h0]
    rcases checkPluginExistance_path w path with h1 | ⟨e, h1⟩
    · rw [h1]
      exact (append_exe_ne path).symm
    · rw [h1]
      intro h2
      have h3 := congrArg String.length h2
      rw [String.length_append] at h3
      have h4 : ".exe".length = 4 := by decide
      have h5 : "".length = 0 := by decide
      simp only [] at h3
      omega

theorem findPluginPath_not_windows_witness :
    linuxWorld.GOOS ≠ "windows" ∧
      findPluginPath linuxWorld "/plugins/tflint-ruleset-azurerm" =
        checkPluginExistance linuxWorld "/plugins/tflint-ruleset-azurerm" ∧
      (findPluginPath linuxWorld "/plugins/tflint-ruleset-azurerm").2 =
        [Event.stat "/plugins/tflint-ruleset-azurerm"] ∧
      (findPluginPath linuxWorld "/plugins/tflint-ruleset-azurerm").1 =
        ("", some (GoError.PathError "stat" "/plugins/tflint-ruleset-azurerm"
          (GoError.Errno 2 "no such file or directory"))) ∧
      (findPluginPath linuxWorld "/plugins/tflint-ruleset-azurerm").1.1 ≠
        "/plugins/tflint-ruleset-azurerm" ++ ".exe" :=
  ⟨by decide,
    (findPluginPath_not_windows linuxWorld "/plugins/tflint-ruleset-azurerm" (by decide)).1,
    (findPluginPath_not_windows linuxWorld "/plugins/tflint-ruleset-azurerm" (by decide)).2.1,
    (findPluginPath_not_windows linuxWorld "/plugins/tflint-ruleset-azurerm"
      (by decide)).2.2.1 _ rfl,
    (findPluginPath_not_windows linuxWorld "/plugins/tflint-ruleset-azurerm"
      (by decide)).2.2.2⟩

theorem findPluginPath_windows (w : World) (path : String) (h : w.GOOS = "windows") :
    findPluginPath w path =
      if os.IsNotExist w (checkPluginExistance w path).1.2 = true then
        ((checkPluginExistance w (path ++ ".exe")).1,
          [Event.stat path, Event.stat (path ++ ".exe")])
      else checkPluginExistance w path := by
  simp [findPluginPath, h, checkPluginExistance_trace]

theorem os.IsNotExist_none (w : World) : os.IsNotExist w none = false := rfl

theorem os.IsNotExist_ErrNotExist (w : World) :
    os.IsNotExist w (some GoError.ErrNotExist) = true := rfl

theorem checkPluginExistance_notExist_iff (w : World) (path : String) :
    os.IsNotExist w (checkPluginExistance w path).1.2 = true ↔
      (w.Stat path = .ok ⟨true⟩ ∨
        ∃ e, w.Stat path = .error e ∧ os.IsNotExist w (some e) = true) := by
  unfold checkPluginExistance
  split
  · rename_i e he
    simp [he]
  · rename_i info hinfo
    obtain ⟨d⟩ := info
    cases d <;> simp [hinfo, os.IsNotExist_none, os.IsNotExist_ErrNotExist]

/-- C9 (as amended): on a Windows target, `findPluginPath` calls `os.Stat` on
the path with ".exe" appended if and only if the check of the bare path
reports that it does not exist, that is when a directory is at the bare path
or `os.Stat` of the bare path fails with a not-exist error; the result is then
the result of the check of the path with ".exe". When a file that is not a
directory is at the bare path, the bare path is returned and the ".exe"
variant is not consulted. -/
theorem findPluginPath_windows_exe_fallback (w : World) (path : String)
    (h : w.GOOS = "windows") :
    (Event.stat (path ++ ".exe") ∈ (findPluginPath w path).2 ↔
        (w.Stat path = .ok ⟨true⟩ ∨
          ∃ e, w.Stat path = .error e ∧ os.IsNotExist w (some e) = true)) ∧
      (Event.stat (path ++ ".exe") ∈ (findPluginPath w path).2 →
        (findPluginPath w path).1 = (checkPluginExistance w (path ++ ".exe")).1) ∧
      (w.Stat path = .ok ⟨false⟩ →
        findPluginPath w path = ((path, none), [Event.stat path])) := by
  have hne : Event.stat (path ++ ".exe") ∉ [Event.stat path] := by
    simp [append_exe_ne]
  rw [findPluginPath_windows w path h, ← checkPluginExistance_notExist_iff]
  by_cases hc : os.IsNotExist w (checkPluginExistance w path).1.2 = true
  · rw [if_pos hc]
    refine ⟨by simp [hc], fun _ => rfl, ?_⟩
    intro hf
    rw [checkPluginExistance_notExist_iff] at hc
    simp [hf] at hc
  · rw [if_neg hc, checkPluginExistance_trace]
    refine ⟨by simp [hc, append_exe_ne], fun hm => absurd hm hne, ?_⟩
    intro hf
    simp [checkPluginExistance, hf]

theorem findPluginPath_windows_exe_fallback_witness :
    windowsWorld.GOOS = "windows" ∧
      Event.stat ("/plugins/tflint-ruleset-aws" ++ ".exe") ∈
        (findPluginPath windowsWorld "/plugins/tflint-ruleset-aws").2 ∧
      (findPluginPath windowsWorld "/plugins/tflint-ruleset-aws").1 =
        (checkPluginExistance windowsWorld ("/plugins/tflint-ruleset-aws" ++ ".exe")).1 ∧
      findPluginPath windowsWorld "/plugins/tflint-ruleset-aws.exe" =
        (("/plugins/tflint-ruleset-aws.exe", none),
          [Event.stat "/plugins/tflint-ruleset-aws.exe"]) :=
  ⟨rfl,
    (findPluginPath_windows_exe_fallback windowsWorld "/plugins/tflint-ruleset-aws" rfl).1.2
      (Or.inr ⟨_, rfl, rfl⟩),
    (findPluginPath_windows_exe_fallback windowsWorld "/plugins/tflint-ruleset-aws" rfl).2.1
      ((findPluginPath_windows_exe_fallback windowsWorld "/plugins/tflint-ruleset-aws"
        rfl).1.2 (Or.inr ⟨_, rfl, rfl⟩)),
    (findPluginPath_windows_exe_fallback windowsWorld "/plugins/tflint-ruleset-aws.exe"
      rfl).2.2 rfl⟩

/-- C9 (as stated) fails: on a Windows target with a directory at the bare
path, something exists at the bare path and `findPluginPath` still consults
the path with ".exe" appended. -/
theorem findPluginPath_windows_exe_fallback_counterexample :
    windowsWorld.GOOS = "windows" ∧
      windowsWorld.Stat "/plugins/tflint-ruleset-dir" = .ok ⟨true⟩ ∧
      Event.stat ("/plugins/tflint-ruleset-dir" ++ ".exe") ∈
        (findPluginPath windowsWorld "/plugins/tflint-ruleset-dir").2 := by
  refine ⟨rfl, rfl, by decide⟩

/-- C10 (as amended): when a directory is at the expected plugin path,
the resolver never returns that path as a plugin. On a target other than
Windows `findPluginPath` reports `os.ErrNotExist`, which satisfies
`os.IsNotExist`, and so does `FindPluginPath` when the plugin directory is
resolved without error. On a Windows target the result is the result of the
check of the path with ".exe" appended. -/
theorem resolver_rejects_directory (w : World) (path : String)
    (h : w.Stat path = .ok ⟨true⟩) :
    (findPluginPath w path).1 ≠ (path, none) ∧
      (w.GOOS ≠ "windows" →
        (findPluginPath w path).1 = ("", some GoError.ErrNotExist) ∧
          os.IsNotExist w (findPluginPath w path).1.2 = true) ∧
      (w.GOOS = "windows" →
        (findPluginPath w path).1 = (checkPluginExistance w (path ++ ".exe")).1) ∧
      (∀ config : InstallConfig, (getPluginDir w config.globalConfig).1.2 = none →
        w.Join (getPluginDir w config.globalConfig).1.1 (w.InstallPath config) = path →
          (FindPluginPath w config).1 ≠ (path, none) ∧
            (w.GOOS ≠ "windows" →
              (FindPluginPath w config).1 = ("", some GoError.ErrNotExist) ∧
                os.IsNotExist w (FindPluginPath w config).1.2 = true)) := by
  have hc : (checkPluginExistance w path).1 = ("", some GoError.ErrNotExist) := by
    simp [checkPluginExistance, h]
  have hwin : w.GOOS = "windows" →
      (findPluginPath w path).1 = (checkPluginExistance w (path ++ ".exe")).1 := by
    intro hw
    rw [findPluginPath_windows w path hw, hc]
    simp [os.IsNotExist_ErrNotExist]
  have hlin : w.GOOS ≠ "windows" →
      (findPluginPath w path).1 = ("", some GoError.ErrNotExist) := by
    intro hw
    rw [(findPluginPath_not_windows_eq w path hw), hc]
  have hne : (findPluginPath w path).1 ≠ (path, none) := by
    by_cases hw : w.GOOS = "windows"
    · rw [hwin hw]
      rcases checkPluginExistance_path w (path ++ ".exe") with h1 | ⟨e, h1⟩
      · rw [h1]
        intro h2
        exact append_exe_ne path (Prod.mk.inj h2).1
      · rw [h1]
        intro h2
        exact absurd (Prod.mk.inj h2).2 (by simp)
    · rw [hlin hw]
      intro h2
      exact absurd (Prod.mk.inj h2).2 (by simp)
  refine ⟨hne, fun hw => ⟨hlin hw, by rw [hlin hw]; rfl⟩, hwin, ?_⟩
  intro config hd hj
  have hF : (FindPluginPath w config).1 = (findPluginPath w path).1 ∨
      ∃ e, (FindPluginPath w config).1 = ("", some e) := by
    unfold FindPluginPath
    simp only [hd, hj]
    split
    · exact Or.inr ⟨_, rfl⟩
    · rename_i hnone
      left
      rw [← hnone]
  refine ⟨?_, fun hw => ?_⟩
  · rcases hF with h1 | ⟨e, h1⟩
    · rw [h1]
      exact hne
    · rw [h1]
      intro h2
      exact absurd (Prod.mk.inj h2).2 (by simp)
  · have h1 : (FindPluginPath w config).1 = ("", some GoError.ErrNotExist) := by
      unfold FindPluginPath
      simp only [hd, hj]
      rw [hlin hw]
    exact ⟨h1, by rw [h1]; rfl⟩

theorem resolver_rejects_directory_witness :
    linuxWorld.Stat "/plugins/tflint-ruleset-dir" = .ok ⟨true⟩ ∧
      (findPluginPath linuxWorld "/plugins/tflint-ruleset-dir").1 =
        ("", some GoError.ErrNotExist) ∧
      (FindPluginPath linuxWorld ⟨⟨"", []⟩, ⟨"dir", true, "", ""⟩⟩).1 =
        ("", some GoError.ErrNotExist) :=
  ⟨rfl,
    ((resolver_rejects_directory linuxWorld "/plugins/tflint-ruleset-dir" rfl).2.1
      (by decide)).1,
    (((resolver_rejects_directory linuxWorld "/plugins/tflint-ruleset-dir" rfl).2.2.2
      ⟨⟨"", []⟩, ⟨"dir", true, "", ""⟩⟩ rfl (by decide)).2 (by decide)).1⟩

/-- C10 (as stated) fails: on a Windows target with a directory at the
expected plugin path and a file at that path with ".exe" appended, the
resolver does not report not-found: it returns the path with ".exe". -/
theorem resolver_rejects_directory_counterexample :
    windowsWorld.Stat "/plugins/tflint-ruleset-dir" = .ok ⟨true⟩ ∧
      (findPluginPath windowsWorld "/plugins/tflint-ruleset-dir").1 =
        ("/plugins/tflint-ruleset-dir.exe", none) ∧
      (FindPluginPath windowsWorld ⟨⟨"", []⟩, ⟨"dir", true, "", ""⟩⟩).1 =
        ("/plugins/tflint-ruleset-dir.exe", none) := by
  refine ⟨rfl, by decide, by decide⟩

/-! ## Claims about `Discovery` -/

theorem discoveryLoop_cons (w : World) (config : Config) (p : PluginConfig)
    (rest : List PluginConfig) (st : Started) :
    (discoveryLoop w config (p :: rest) st).1 =
      match (pluginCommand w config p).1 with
      | .error err => .error err
      | .ok cmd =>
        match (launch w p cmd st).1 with
        | .error err => .error err
        | .ok st1 => (discoveryLoop w config rest st1).1 := by
  simp only [discoveryLoop]
  split
  · rfl
  · split <;> rfl

/-- The loop over `pre ++ rest` is the loop over `pre` followed, when that
does not return, by the loop over `rest`. -/
theorem discoveryLoop_append (w : World) (config : Config) (rest : List PluginConfig) :
    ∀ (pre : List PluginConfig) (st : Started),
      (discoveryLoop w config (pre ++ rest) st).1 =
        match (discoveryLoop w config pre st).1 with
        | .error err => .error err
        | .ok st1 => (discoveryLoop w config rest st1).1
  | [], st => by simp [discoveryLoop]
  | p :: pre, st => by
    rw [List.cons_append, discoveryLoop_cons, discoveryLoop_cons]
    split
    · rfl
    · split
      · rfl
      · exact discoveryLoop_append w config rest pre _

theorem Discovery_result (w : World) (config : Config) (order : List PluginConfig) :
    (Discovery w config order).1 =
      match (discoveryLoop w config order ⟨GoMap.make, GoMap.make⟩).1 with
      | .error err => (none, err)
      | .ok st => (some ⟨st.rulesets, st.clients⟩, none) := by
  simp only [Discovery]
  split <;> simp_all

theorem pluginClientError_ne_none (w : World) (err : GoError) (config : PluginConfig) :
    pluginClientError w (some err) config ≠ none := by
  simp only [pluginClientError]
  split <;> simp

theorem pluginCommand_error_ne_none (w : World) (config : Config) (p : PluginConfig)
    (e : Option GoError) (h : (pluginCommand w config p).1 = .error e) : e ≠ none := by
  unfold pluginCommand at h
  simp only at h
  split at h
  · split at h
    · split at h
      · cases h; simp
      · cases h
    · split at h
      · split at h
        · cases h; simp
        · cases h; simp
      · cases h; simp
  · cases h

theorem launch_error_ne_none (w : World) (p : PluginConfig) (cmd : Cmd) (st : Started)
    (e : Option GoError) (h : (launch w p cmd st).1 = .error e) : e ≠ none := by
  unfold launch at h
  split at h
  · simp only at h
    split at h
    · cases h
      exact pluginClientError_ne_none _ _ _
    · split at h
      · cases h; simp
      · cases h
  · cases h

/-- Whether the start of an enabled plugin with the command `cmd` fails: the
handshake fails, or the handshake succeeds and the request for the rule set
fails. -/
theorem launch_fails (w : World) (p : PluginConfig) (cmd : Cmd) (st : Started)
    (hen : p.Enabled = true)
    (h : (∃ err, w.Client (host2plugin.NewClient cmd) = .error err) ∨
      ∃ rpc err, w.Client (host2plugin.NewClient cmd) = .ok rpc ∧
        w.Dispense rpc "ruleset" = .error err) :
    ∃ e, (launch w p cmd st).1 = .error e := by
  rcases h with ⟨err, h1⟩ | ⟨rpc, err, h1, h2⟩
  · exact ⟨pluginClientError w (some err) p, by simp [launch, hen, h1]⟩
  · exact ⟨some err, by simp [launch, hen, h1, h2]⟩

theorem discoveryLoop_fails (w : World) (config : Config) (p : PluginConfig) (cmd : Cmd)
    (hen : p.Enabled = true) (hcmd : (pluginCommand w config p).1 = .ok cmd)
    (h : (∃ err, w.Client (host2plugin.NewClient cmd) = .error err) ∨
      ∃ rpc err, w.Client (host2plugin.NewClient cmd) = .ok rpc ∧
        w.Dispense rpc "ruleset" = .error err) :
    ∀ (order : List PluginConfig) (st : Started), p ∈ order →
      ∃ e, (discoveryLoop w config order st).1 = .error e
  | [], _, hp => absurd hp (List.not_mem_nil _)
  | q :: rest, st, hp => by
    rw [discoveryLoop_cons]
    split
    · exact ⟨_, rfl⟩
    · rename_i cmdq hq
      split
      · exact ⟨_, rfl⟩
      · rename_i st1 hl
        rcases List.mem_cons.1 hp with rfl | hp1
        · rw [hcmd] at hq
          cases hq
          obtain ⟨e, he⟩ := launch_fails w p cmd st hen h
          rw [he] at hl
          cases hl
        · exact discoveryLoop_fails w config p cmd hen hcmd h rest st1 hp1

theorem discoveryLoop_error_ne_none (w : World) (config : Config) :
    ∀ (order : List PluginConfig) (st : Started) (e : Option GoError),
      (discoveryLoop w config order st).1 = .error e → e ≠ none
  | [], _, _, h => by simp [discoveryLoop] at h
  | q :: rest, st, e, h => by
    rw [discoveryLoop_cons] at h
    split at h
    · rename_i err hq
      cases h
      exact pluginCommand_error_ne_none w config q _ hq
    · split at h
      · rename_i err hl
        cases h
        exact launch_error_ne_none w q _ st _ hl
      · exact discoveryLoop_error_ne_none w config rest _ e h

/-- C2: when the handshake or the request for the rule set fails for an
enabled plugin of the configuration, `Discovery` returns no registry and an
error, in whatever order the plugin map is visited. -/
theorem Discovery_fails_when_a_plugin_fails (w : World) (config : Config)
    (order : List PluginConfig) (p : PluginConfig) (cmd : Cmd)
    (horder : order.Perm config.Plugins) (hp : p ∈ config.Plugins)
    (hen : p.Enabled = true) (hcmd : (pluginCommand w config p).1 = .ok cmd)
    (h : (∃ err, w.Client (host2plugin.NewClient cmd) = .error err) ∨
      ∃ rpc err, w.Client (host2plugin.NewClient cmd) = .ok rpc ∧
        w.Dispense rpc "ruleset" = .error err) :
    (Discovery w config order).1.1 = none ∧ (Discovery w config order).1.2 ≠ none := by
  obtain ⟨e, he⟩ := discoveryLoop_fails w config p cmd hen hcmd h order
    ⟨GoMap.make, GoMap.make⟩ (horder.mem_iff.2 hp)
  rw [Discovery_result, he]
  exact ⟨rfl, discoveryLoop_error_ne_none w config order _ e he⟩

theorem Discovery_fails_when_a_plugin_fails_witness :
    ([⟨"aws", true, "", ""⟩, ⟨"azurerm", true, "", ""⟩] : List PluginConfig).Perm
        (⟨"", [⟨"azurerm", true, "", ""⟩, ⟨"aws", true, "", ""⟩]⟩ : Config).Plugins ∧
      (Discovery dispenseFailsWorld ⟨"", [⟨"azurerm", true, "", ""⟩, ⟨"aws", true, "", ""⟩]⟩
          [⟨"aws", true, "", ""⟩, ⟨"azurerm", true, "", ""⟩]).1.1 = none ∧
      (Discovery dispenseFailsWorld ⟨"", [⟨"azurerm", true, "", ""⟩, ⟨"aws", true, "", ""⟩]⟩
          [⟨"aws", true, "", ""⟩, ⟨"azurerm", true, "", ""⟩]).1.2 ≠ none :=
  ⟨List.Perm.swap _ _ _,
    Discovery_fails_when_a_plugin_fails dispenseFailsWorld
      ⟨"", [⟨"azurerm", true, "", ""⟩, ⟨"aws", true, "", ""⟩]⟩
      [⟨"aws", true, "", ""⟩, ⟨"azurerm", true, "", ""⟩] ⟨"aws", true, "", ""⟩
      (exec.Command "/plugins/tflint-ruleset-aws" []) (List.Perm.swap _ _ _) (by decide) rfl
      rfl
      (Or.inr ⟨⟨1⟩, GoError.New "Incompatible API version with plugin. Plugin version: 10",
        rfl, rfl⟩)⟩

/-- When the loop has passed the entries `pre` and the start of `p` returns
`e`, `Discovery` returns no registry and `e`. -/
theorem Discovery_of_launch_error (w : World) (config : Config)
    (pre post : List PluginConfig) (p : PluginConfig) (st1 : Started) (cmd : Cmd)
    (e : Option GoError)
    (hpre : (discoveryLoop w config pre ⟨GoMap.make, GoMap.make⟩).1 = .ok st1)
    (hcmd : (pluginCommand w config p).1 = .ok cmd)
    (hl : (launch w p cmd st1).1 = .error e) :
    (Discovery w config (pre ++ p :: post)).1 = (none, e) := by
  rw [Discovery_result, discoveryLoop_append, hpre]
  simp only []
  rw [discoveryLoop_cons, hcmd]
  simp only []
  rw [hl]

theorem Discovery_of_command_error (w : World) (config : Config)
    (pre post : List PluginConfig) (p : PluginConfig) (st1 : Started) (e : Option GoError)
    (hpre : (discoveryLoop w config pre ⟨GoMap.make, GoMap.make⟩).1 = .ok st1)
    (hcmd : (pluginCommand w config p).1 = .error e) :
    (Discovery w config (pre ++ p :: post)).1 = (none, e) := by
  rw [Discovery_result, discoveryLoop_append, hpre]
  simp only []
  rw [discoveryLoop_cons, hcmd]

theorem Discovery_of_launch_ok (w : World) (config : Config)
    (pre : List PluginConfig) (p : PluginConfig) (st1 st2 : Started) (cmd : Cmd)
    (hpre : (discoveryLoop w config pre ⟨GoMap.make, GoMap.make⟩).1 = .ok st1)
    (hcmd : (pluginCommand w config p).1 = .ok cmd)
    (hl : (launch w p cmd st1).1 = .ok st2) :
    (Discovery w config (pre ++ [p])).1 = (some ⟨st2.rulesets, st2.clients⟩, none) := by
  rw [Discovery_result, discoveryLoop_append, hpre]
  simp only []
  rw [discoveryLoop_cons, hcmd]
  simp only []
  rw [hl]
  simp [discoveryLoop]

theorem advice_infix_replacement (w : World) (name : String) :
    "A newer TofuLint or plugin version may be required.".data <:+:
      (replacement w name).data := by
  have hB : " plugin. A newer TofuLint or plugin version may be required.".data =
      " plugin. ".data ++ "A newer TofuLint or plugin version may be required.".data := rfl
  rw [replacement_data, hB]
  exact ⟨'T' :: ("ofuLint is not compatible with this version of the ".data ++
    ((Char.ofNat 34 :: (name.data.flatMap (strconv.appendEscapedRune w.isPrintWide) ++
      [Char.ofNat 34])) ++ " plugin. ".data)), [], by simp⟩

theorem search_length_lt_replacement (w : World) (name : String) :
    search.data.length < (replacement w name).data.length := by
  have h1 : search.data.length = 37 := rfl
  have h2 : "ofuLint is not compatible with this version of the ".data.length = 51 := rfl
  rw [replacement_data, h1]
  simp only [List.length_cons, List.length_append, h2]
  omega

theorem Replace_search_ne (w : World) (name message : String)
    (h : strings.Contains message search = true) :
    strings.Replace message search (replacement w name) (-1) ≠ message := by
  intro heq
  have h1 := congrArg (fun s => s.data.length) heq
  simp only [Replace_search_data] at h1
  rw [strings.Contains, strings.containsChars_iff] at h
  have h2 := strings.length_replaceFrom_gt search.data (replacement w name).data
    (by rw [search_data]; simp) (search_length_lt_replacement w name) message.data h
  omega

/-- C5 (as amended): when the loop of `Discovery` reaches an enabled plugin
and the handshake fails with an error whose text contains the phrase
"Incompatible API version with plugin.", `Discovery` returns a new error
whose message is the original text with the phrase replaced: it contains the
plugin name as Go quotes it and the advice "A newer TofuLint or plugin
version may be required.", and it differs from the original text. An error of
the request for the rule set is returned as it is. -/
theorem Discovery_rewrites_handshake_mismatch (w : World) (config : Config)
    (pre post : List PluginConfig) (p : PluginConfig) (st1 : Started) (cmd : Cmd)
    (hpre : (discoveryLoop w config pre ⟨GoMap.make, GoMap.make⟩).1 = .ok st1)
    (hen : p.Enabled = true) (hcmd : (pluginCommand w config p).1 = .ok cmd) :
    (∀ err, w.Client (host2plugin.NewClient cmd) = .error err →
      strings.Contains err.Error search = true →
        ∃ msg, (Discovery w config (pre ++ p :: post)).1 = (none, some (GoError.New msg)) ∧
          msg = strings.Replace err.Error search (replacement w p.Name) (-1) ∧
          strings.Contains msg (strconv.Quote w.isPrintWide p.Name) = true ∧
          strings.Contains msg "A newer TofuLint or plugin version may be required." = true ∧
          msg ≠ err.Error) ∧
      (∀ rpc err, w.Client (host2plugin.NewClient cmd) = .ok rpc →
        w.Dispense rpc "ruleset" = .error err →
          (Discovery w config (pre ++ p :: post)).1 = (none, some err)) := by
  constructor
  · intro err hfail hmsg
    refine ⟨_, ?_, rfl, ?_, ?_, Replace_search_ne w p.Name err.Error hmsg⟩
    · apply Discovery_of_launch_error w config pre post p st1 cmd _ hpre hcmd
      simp [launch, hen, hfail, pluginClientError_of_contains w err p hmsg]
    · rw [strings.Contains, strings.containsChars_iff, Replace_search_data]
      rw [strings.Contains, strings.containsChars_iff] at hmsg
      exact (quote_infix_replacement w p.Name).trans
        (strings.infix_replaceFrom _ _ (by rw [search_data]; simp) _ hmsg)
    · rw [strings.Contains, strings.containsChars_iff, Replace_search_data]
      rw [strings.Contains, strings.containsChars_iff] at hmsg
      exact (advice_infix_replacement w p.Name).trans
        (strings.infix_replaceFrom _ _ (by rw [search_data]; simp) _ hmsg)
  · intro rpc err h1 h2
    apply Discovery_of_launch_error w config pre post p st1 cmd _ hpre hcmd
    simp [launch, hen, h1, h2]

theorem Discovery_rewrites_handshake_mismatch_witness :
    (discoveryLoop handshakeFailsWorld ⟨"", [⟨"aws", true, "", ""⟩]⟩ []
        ⟨GoMap.make, GoMap.make⟩).1 = .ok ⟨GoMap.make, GoMap.make⟩ ∧
      (∃ msg, (Discovery handshakeFailsWorld ⟨"", [⟨"aws", true, "", ""⟩]⟩
            ([] ++ (⟨"aws", true, "", ""⟩ : PluginConfig) :: [])).1 =
              (none, some (GoError.New msg)) ∧
          msg = strings.Replace
            (GoError.New
              "Incompatible API version with plugin. Plugin version: 10, Client versions: [11]").Error
            search
            (replacement handshakeFailsWorld (⟨"aws", true, "", ""⟩ : PluginConfig).Name)
            (-1) ∧
          strings.Contains msg (strconv.Quote handshakeFailsWorld.isPrintWide
            (⟨"aws", true, "", ""⟩ : PluginConfig).Name) = true ∧
          strings.Contains msg "A newer TofuLint or plugin version may be required." = true ∧
          msg ≠ (GoError.New
            "Incompatible API version with plugin. Plugin version: 10, Client versions: [11]").Error) ∧
      (Discovery dispenseFailsWorld ⟨"", [⟨"aws", true, "", ""⟩]⟩
          ([] ++ (⟨"aws", true, "", ""⟩ : PluginConfig) :: [])).1 =
        (none, some (GoError.New "Incompatible API version with plugin. Plugin version: 10")) :=
  ⟨rfl,
    (Discovery_rewrites_handshake_mismatch handshakeFailsWorld
      ⟨"", [⟨"aws", true, "", ""⟩]⟩ [] [] ⟨"aws", true, "", ""⟩ ⟨GoMap.make, GoMap.make⟩
      (exec.Command "/plugins/tflint-ruleset-aws" []) rfl rfl rfl).1 _ rfl (by decide),
    (Discovery_rewrites_handshake_mismatch dispenseFailsWorld
      ⟨"", [⟨"aws", true, "", ""⟩]⟩ [] [] ⟨"aws", true, "", ""⟩ ⟨GoMap.make, GoMap.make⟩
      (exec.Command "/plugins/tflint-ruleset-aws" []) rfl rfl rfl).2 ⟨1⟩ _ rfl rfl⟩

/-- C5 (as stated) fails for the request for the rule set: when that call
fails with an error whose text contains the phrase, `Discovery` returns the
error with its original text. -/
theorem Discovery_rewrites_handshake_mismatch_counterexample :
    dispenseFailsWorld.Client
        (host2plugin.NewClient (exec.Command "/plugins/tflint-ruleset-aws" [])) = .ok ⟨1⟩ ∧
      dispenseFailsWorld.Dispense ⟨1⟩ "ruleset" =
        .error (GoError.New "Incompatible API version with plugin. Plugin version: 10") ∧
      strings.Contains
        (GoError.New "Incompatible API version with plugin. Plugin version: 10").Error
        search = true ∧
      (Discovery dispenseFailsWorld ⟨"", [⟨"aws", true, "", ""⟩]⟩ [⟨"aws", true, "", ""⟩]).1 =
        (none, some (GoError.New "Incompatible API version with plugin. Plugin version: 10")) := by
  refine ⟨rfl, rfl, by decide, by decide⟩

/-- C1 (as amended): for a plugin named "terraform" whose binary the resolver
reports as not found: if `ManuallyInstalled` is true, the loop body of
`Discovery` does not return at the resolution step, the command it builds runs
the host's own executable with `--act-as-bundled-plugin`, and `Discovery`
succeeds when the entry is the last one and is disabled or starts without
error; if `ManuallyInstalled` is false, `Discovery` fails with the error
`Plugin "terraform" not found. Did you run "tofulint --init"?`. -/
theorem terraform_not_found (w : World) (config : Config) (p : PluginConfig)
    (hname : p.Name = "terraform")
    (hnf : os.IsNotExist w (FindPluginPath w (NewInstallConfig config p)).1.2 = true) :
    (w.ManuallyInstalled (NewInstallConfig config p) = true →
      ∀ self, w.Executable = (self, none) →
        (pluginCommand w config p).1 = .ok (exec.Command self ["--act-as-bundled-plugin"]) ∧
        ∀ pre st1, (discoveryLoop w config pre ⟨GoMap.make, GoMap.make⟩).1 = .ok st1 →
          (p.Enabled = false ∨
            ∃ rpc ruleset,
              w.Client (host2plugin.NewClient
                (exec.Command self ["--act-as-bundled-plugin"])) = .ok rpc ∧
              w.Dispense rpc "ruleset" = .ok ruleset) →
            ∃ registry, (Discovery w config (pre ++ [p])).1 = (some registry, none)) ∧
      (w.ManuallyInstalled (NewInstallConfig config p) = false →
        ∀ pre post st1, (discoveryLoop w config pre ⟨GoMap.make, GoMap.make⟩).1 = .ok st1 →
          (Discovery w config (pre ++ p :: post)).1 =
            (none, some (GoError.New
              "Plugin \"terraform\" not found. Did you run \"tofulint --init\"?"))) := by
  constructor
  · intro hm self hself
    have hcmd : (pluginCommand w config p).1 =
        .ok (exec.Command self ["--act-as-bundled-plugin"]) := by
      simp [pluginCommand, hnf, hname, hm, hself]
    refine ⟨hcmd, ?_⟩
    intro pre st1 hpre hl
    rcases hl with hdis | ⟨rpc, ruleset, h1, h2⟩
    · exact ⟨_, Discovery_of_launch_ok w config pre p st1 st1 _ hpre hcmd
        (by simp [launch, hdis])⟩
    · by_cases hen : p.Enabled = true
      · exact ⟨_, Discovery_of_launch_ok w config pre p st1
          ⟨st1.clients.set p.Name
            (host2plugin.NewClient (exec.Command self ["--act-as-bundled-plugin"])),
            st1.rulesets.set p.Name ruleset⟩ _ hpre hcmd
          (by simp only [launch, hen, h1, h2, if_true])⟩
      · exact ⟨_, Discovery_of_launch_ok w config pre p st1 st1 _ hpre hcmd
          (by simp [launch, hen])⟩
  · intro hm pre post st1 hpre
    apply Discovery_of_command_error w config pre post p st1 _ hpre
    have hs : "Plugin \"" ++ "terraform" ++ "\" not found. Did you run \"tofulint --init\"?" =
        "Plugin \"terraform\" not found. Did you run \"tofulint --init\"?" := by decide
    simp [pluginCommand, hnf, hname, hm, hs]

theorem terraform_not_found_witness :
    (⟨"terraform", true, "", ""⟩ : PluginConfig).Name = "terraform" ∧
      os.IsNotExist linuxWorld
        (FindPluginPath linuxWorld
          (NewInstallConfig ⟨"", [⟨"terraform", true, "", ""⟩]⟩
            ⟨"terraform", true, "", ""⟩)).1.2 = true ∧
      (pluginCommand linuxWorld ⟨"", [⟨"terraform", true, "", ""⟩]⟩
          ⟨"terraform", true, "", ""⟩).1 =
        .ok (exec.Command "/usr/bin/tofulint" ["--act-as-bundled-plugin"]) ∧
      (∃ registry, (Discovery linuxWorld ⟨"", [⟨"terraform", true, "", ""⟩]⟩
          ([] ++ [⟨"terraform", true, "", ""⟩])).1 = (some registry, none)) ∧
      (Discovery linuxWorld ⟨"", [⟨"terraform", true, "0.5.0", "github.com/x/y"⟩]⟩
          ([] ++ (⟨"terraform", true, "0.5.0", "github.com/x/y"⟩ : PluginConfig) :: [])).1 =
        (none, some (GoError.New
          "Plugin \"terraform\" not found. Did you run \"tofulint --init\"?")) :=
  ⟨rfl, rfl,
    ((terraform_not_found linuxWorld ⟨"", [⟨"terraform", true, "", ""⟩]⟩
      ⟨"terraform", true, "", ""⟩ rfl rfl).1 rfl "/usr/bin/tofulint" rfl).1,
    ((terraform_not_found linuxWorld ⟨"", [⟨"terraform", true, "", ""⟩]⟩
      ⟨"terraform", true, "", ""⟩ rfl rfl).1 rfl "/usr/bin/tofulint" rfl).2 []
      ⟨GoMap.make, GoMap.make⟩ rfl (Or.inr ⟨⟨2⟩, ⟨2⟩, rfl, rfl⟩),
    (terraform_not_found linuxWorld ⟨"", [⟨"terraform", true, "0.5.0", "github.com/x/y"⟩]⟩
      ⟨"terraform", true, "0.5.0", "github.com/x/y"⟩ rfl rfl).2 rfl [] []
      ⟨GoMap.make, GoMap.make⟩ rfl⟩

/-- C1 (as stated) fails in both halves: with the "terraform" binary not
found and the manually-installed flag false, `Discovery` fails, with a message
that does not name the search directory; with the flag true, `Discovery`
succeeds and starts the host's own executable as the bundled plugin. -/
theorem terraform_not_found_counterexample :
    linuxWorld.ManuallyInstalled
        (NewInstallConfig ⟨"", []⟩ ⟨"terraform", true, "0.5.0", "github.com/x/y"⟩) = false ∧
      os.IsNotExist linuxWorld
        (FindPluginPath linuxWorld
          (NewInstallConfig ⟨"", []⟩ ⟨"terraform", true, "0.5.0", "github.com/x/y"⟩)).1.2
        = true ∧
      (Discovery linuxWorld ⟨"", []⟩ [⟨"terraform", true, "0.5.0", "github.com/x/y"⟩]).1 =
        (none, some (GoError.New
          "Plugin \"terraform\" not found. Did you run \"tofulint --init\"?")) ∧
      linuxWorld.ManuallyInstalled
        (NewInstallConfig ⟨"", []⟩ ⟨"terraform", true, "", ""⟩) = true ∧
      os.IsNotExist linuxWorld
        (FindPluginPath linuxWorld
          (NewInstallConfig ⟨"", []⟩ ⟨"terraform", true, "", ""⟩)).1.2 = true ∧
      (Discovery linuxWorld ⟨"", []⟩ [⟨"terraform", true, "", ""⟩]).1 =
        (some ⟨⟨false, [("terraform", ⟨2⟩)]⟩,
          ⟨false, [("terraform",
            ⟨exec.Command "/usr/bin/tofulint" ["--act-as-bundled-plugin"]⟩)]⟩⟩, none) := by
  refine ⟨rfl, rfl, by decide, rfl, rfl, by decide⟩

/-! ## The outcomes of the path resolver -/

theorem checkPluginExistance_outcomes (w : World) (path : String) :
    ((checkPluginExistance w path).1 = (path, none) ∧ w.Stat path = .ok ⟨false⟩) ∨
      ((checkPluginExistance w path).1 = ("", some GoError.ErrNotExist) ∧
        w.Stat path = .ok ⟨true⟩) ∨
      ∃ err, (checkPluginExistance w path).1 = ("", some err) ∧ w.Stat path = .error err := by
  unfold checkPluginExistance
  split
  · rename_i err herr
    exact Or.inr (Or.inr ⟨err, rfl, herr⟩)
  · rename_i info hinfo
    obtain ⟨d⟩ := info
    cases d
    · exact Or.inl ⟨by simp, hinfo⟩
    · exact Or.inr (Or.inl ⟨by simp, hinfo⟩)

/-- What `findPluginPath` can return: the bare path or, on Windows, the path
with ".exe", when `os.Stat` finds a file that is not a directory there; or
the empty path with `os.ErrNotExist` or with the error of an `os.Stat`. -/
theorem findPluginPath_outcomes (w : World) (path : String) :
    (∃ found, (findPluginPath w path).1 = (found, none) ∧ w.Stat found = .ok ⟨false⟩ ∧
        (found = path ∨ (w.GOOS = "windows" ∧ found = path ++ ".exe"))) ∨
      ∃ err, (findPluginPath w path).1 = ("", some err) ∧
        (err = GoError.ErrNotExist ∨ ∃ q, w.Stat q = .error err) := by
  have hcheck : ∀ q, (q = path ∨ (w.GOOS = "windows" ∧ q = path ++ ".exe")) →
      (∃ found, (checkPluginExistance w q).1 = (found, none) ∧ w.Stat found = .ok ⟨false⟩ ∧
          (found = path ∨ (w.GOOS = "windows" ∧ found = path ++ ".exe"))) ∨
        ∃ err, (checkPluginExistance w q).1 = ("", some err) ∧
          (err = GoError.ErrNotExist ∨ ∃ q, w.Stat q = .error err) := by
    intro q hq
    rcases checkPluginExistance_outcomes w q with ⟨h1, h2⟩ | ⟨h1, _⟩ | ⟨err, h1, h2⟩
    · exact Or.inl ⟨q, h1, h2, hq⟩
    · exact Or.inr ⟨_, h1, Or.inl rfl⟩
    · exact Or.inr ⟨err, h1, Or.inr ⟨q, h2⟩⟩
  by_cases hw : w.GOOS = "windows"
  · rw [findPluginPath_windows w path hw]
    split
    · exact hcheck _ (Or.inr ⟨hw, rfl⟩)
    · exact hcheck _ (Or.inl rfl)
  · rw [findPluginPath_not_windows_eq w path hw]
    exact hcheck _ (Or.inl rfl)

theorem FindPluginPath_eq (w : World) (config : InstallConfig) :
    (FindPluginPath w config).1 =
      match (getPluginDir w config.globalConfig).1.2 with
      | some err => ("", some err)
      | none =>
        match (findPluginPath w
          (w.Join (getPluginDir w config.globalConfig).1.1 (w.InstallPath config))).1.2 with
        | some err => ("", some err)
        | none =>
          ((findPluginPath w
            (w.Join (getPluginDir w config.globalConfig).1.1 (w.InstallPath config))).1.1, none) := by
  unfold FindPluginPath
  simp only []
  split
  · rfl
  · split <;> rfl

/-- What `findPluginPath` can return, with the path that `os.Stat` looked
at: the bare path or, on Windows, the path with ".exe" is returned when a
file that is not a directory is there; otherwise the result is the empty path
with `os.ErrNotExist` when a directory is there, or with the error of the
`os.Stat` of that path. -/
theorem findPluginPath_outcomes_at (w : World) (path : String) :
    (∃ found, (findPluginPath w path).1 = (found, none) ∧ w.Stat found = .ok ⟨false⟩ ∧
        (found = path ∨ (w.GOOS = "windows" ∧ found = path ++ ".exe"))) ∨
      ∃ err q, (findPluginPath w path).1 = ("", some err) ∧
        (q = path ∨ (w.GOOS = "windows" ∧ q = path ++ ".exe")) ∧
        ((err = GoError.ErrNotExist ∧ w.Stat q = .ok ⟨true⟩) ∨ w.Stat q = .error err) := by
  have hcheck : ∀ q, (q = path ∨ (w.GOOS = "windows" ∧ q = path ++ ".exe")) →
      (∃ found, (checkPluginExistance w q).1 = (found, none) ∧ w.Stat found = .ok ⟨false⟩ ∧
          (found = path ∨ (w.GOOS = "windows" ∧ found = path ++ ".exe"))) ∨
        ∃ err q1, (checkPluginExistance w q).1 = ("", some err) ∧
          (q1 = path ∨ (w.GOOS = "windows" ∧ q1 = path ++ ".exe")) ∧
          ((err = GoError.ErrNotExist ∧ w.Stat q1 = .ok ⟨true⟩) ∨ w.Stat q1 = .error err) := by
    intro q hq
    rcases checkPluginExistance_outcomes w q with ⟨h1, h2⟩ | ⟨h1, h2⟩ | ⟨err, h1, h2⟩
    · exact Or.inl ⟨q, h1, h2, hq⟩
    · exact Or.inr ⟨_, q, h1, hq, Or.inl ⟨rfl, h2⟩⟩
    · exact Or.inr ⟨err, q, h1, hq, Or.inr h2⟩
  by_cases hw : w.GOOS = "windows"
  · rw [findPluginPath_windows w path hw]
    split
    · exact hcheck _ (Or.inr ⟨hw, rfl⟩)
    · exact hcheck _ (Or.inl rfl)
  · rw [findPluginPath_not_windows_eq w path hw]
    exact hcheck _ (Or.inl rfl)

/-- C11 (as amended): `FindPluginPath` has two outcomes. Either `getPluginDir`
returns a directory and `FindPluginPath` returns, with no error, the join of
that directory and the install path or, on Windows only, that join with
".exe" appended, and `os.Stat` finds at the returned path a file that is not
a directory. Or it fails with the empty path and an error, which is the error
of `getPluginDir`, or `os.ErrNotExist` when a directory is at the joined path
(on Windows, at that path with ".exe"), or the error of the `os.Stat` of that
path as it is, whether or not that error says that the file does not
exist. -/
theorem FindPluginPath_outcomes (w : World) (config : InstallConfig) :
    (∃ dir path, (getPluginDir w config.globalConfig).1 = (dir, none) ∧
        (FindPluginPath w config).1 = (path, none) ∧
        (path = w.Join dir (w.InstallPath config) ∨
          (w.GOOS = "windows" ∧ path = w.Join dir (w.InstallPath config) ++ ".exe")) ∧
        w.Stat path = .ok ⟨false⟩) ∨
      ∃ err, (FindPluginPath w config).1 = ("", some err) ∧
        ((getPluginDir w config.globalConfig).1.2 = some err ∨
          ∃ dir q, (getPluginDir w config.globalConfig).1 = (dir, none) ∧
            (q = w.Join dir (w.InstallPath config) ∨
              (w.GOOS = "windows" ∧ q = w.Join dir (w.InstallPath config) ++ ".exe")) ∧
            ((err = GoError.ErrNotExist ∧ w.Stat q = .ok ⟨true⟩) ∨
              w.Stat q = .error err)) := by
  rw [FindPluginPath_eq]
  split
  · rename_i err herr
    exact Or.inr ⟨err, rfl, Or.inl herr⟩
  · rename_i hdir
    have hd : (getPluginDir w config.globalConfig).1 =
        ((getPluginDir w config.globalConfig).1.1, none) := Prod.ext rfl hdir
    rcases findPluginPath_outcomes_at w
      (w.Join (getPluginDir w config.globalConfig).1.1 (w.InstallPath config)) with
      ⟨found, h1, h2, h3⟩ | ⟨err, q, h1, h2, h3⟩
    · rw [h1]
      exact Or.inl ⟨_, found, hd, rfl, h3, h2⟩
    · rw [h1]
      exact Or.inr ⟨err, rfl, Or.inr ⟨_, q, hd, h2, h3⟩⟩

/-- C11 (as stated) fails: when `os.Stat` fails with a permission error,
`FindPluginPath` fails with that error, which is not a not-found error; and
with a relative plugin directory in `TOFULINT_PLUGIN_DIR` the path it returns
is not absolute. -/
theorem FindPluginPath_outcomes_counterexample :
    (FindPluginPath permissionWorld ⟨⟨"", []⟩, ⟨"aws", true, "", ""⟩⟩).1 =
        ("", some (GoError.PathError "stat" "/plugins/tflint-ruleset-aws"
          (GoError.Errno 13 "permission denied"))) ∧
      os.IsNotExist permissionWorld
        (FindPluginPath permissionWorld ⟨⟨"", []⟩, ⟨"aws", true, "", ""⟩⟩).1.2 = false ∧
      (FindPluginPath relativeWorld ⟨⟨"", []⟩, ⟨"aws", true, "", ""⟩⟩).1 =
        ("plugins/tflint-ruleset-aws", none) ∧
      filepath.IsAbs "plugins/tflint-ruleset-aws" = false := by
  refine ⟨by decide, by decide, by decide, by decide⟩

/-! ## `Discovery`: results together with the calls made -/

theorem discoveryLoop_cons_full (w : World) (config : Config) (p : PluginConfig)
    (rest : List PluginConfig) (st : Started) :
    discoveryLoop w config (p :: rest) st =
      match (pluginCommand w config p).1 with
      | .error err => (.error err, (pluginCommand w config p).2)
      | .ok cmd =>
        match (launch w p cmd st).1 with
        | .error err => (.error err, (pluginCommand w config p).2 ++ (launch w p cmd st).2)
        | .ok st1 =>
          ((discoveryLoop w config rest st1).1,
            (pluginCommand w config p).2 ++ (launch w p cmd st).2 ++
              (discoveryLoop w config rest st1).2) := by
  simp only [discoveryLoop]

/-- The loop over `pre ++ rest`, with its calls: the loop over `pre`, and when
that does not return, the loop over `rest` after it. -/
theorem discoveryLoop_append_full (w : World) (config : Config) (rest : List PluginConfig) :
    ∀ (pre : List PluginConfig) (st : Started),
      discoveryLoop w config (pre ++ rest) st =
        match (discoveryLoop w config pre st).1 with
        | .error err => (.error err, (discoveryLoop w config pre st).2)
        | .ok st1 =>
          ((discoveryLoop w config rest st1).1,
            (discoveryLoop w config pre st).2 ++ (discoveryLoop w config rest st1).2)
  | [], st => by simp [discoveryLoop]
  | p :: pre, st => by
    rw [List.cons_append, discoveryLoop_cons_full, discoveryLoop_cons_full]
    split
    · rfl
    · split
      · rfl
      · rw [discoveryLoop_append_full w config rest pre _]
        simp only []
        split <;> simp [List.append_assoc]

theorem Discovery_eq (w : World) (config : Config) (order : List PluginConfig) :
    Discovery w config order =
      match (discoveryLoop w config order ⟨GoMap.make, GoMap.make⟩).1 with
      | .error err => ((none, err), (discoveryLoop w config order ⟨GoMap.make, GoMap.make⟩).2)
      | .ok st =>
        ((some ⟨st.rulesets, st.clients⟩, none),
          (discoveryLoop w config order ⟨GoMap.make, GoMap.make⟩).2) := by
  simp only [Discovery]

/-- When the loop has passed the entries `pre` and the choice of the command
for `p` returns `e`, `Discovery` returns no registry and `e`, and its calls
end with those of that choice. -/
theorem Discovery_of_command_error_full (w : World) (config : Config)
    (pre post : List PluginConfig) (p : PluginConfig) (st1 : Started) (e : Option GoError)
    (hpre : (discoveryLoop w config pre ⟨GoMap.make, GoMap.make⟩).1 = .ok st1)
    (hcmd : (pluginCommand w config p).1 = .error e) :
    Discovery w config (pre ++ p :: post) =
      ((none, e), (discoveryLoop w config pre ⟨GoMap.make, GoMap.make⟩).2 ++
        (pluginCommand w config p).2) := by
  rw [Discovery_eq, discoveryLoop_append_full, hpre]
  simp only []
  rw [discoveryLoop_cons_full, hcmd]

/-- C13: for a plugin entry that is not named "terraform" and whose binary
the resolver reports as not found, `Discovery` returns at that entry, whatever
entries would come after it: when the plugin is manually installed, with the
error `Plugin "<name>" not found in <dir>`, where `<dir>` is the directory
that `getPluginDir` returns for the configuration; otherwise with the error
`Plugin "<name>" not found. Did you run "tofulint --init"?`. The calls of
`Discovery` end with those of the resolution of that entry: nothing is
started for it or after it. -/
theorem Discovery_plugin_not_found (w : World) (config : Config) (p : PluginConfig)
    (hname : p.Name ≠ "terraform")
    (hnf : os.IsNotExist w (FindPluginPath w (NewInstallConfig config p)).1.2 = true) :
    (w.ManuallyInstalled (NewInstallConfig config p) = true →
      ∀ dir, (getPluginDir w config).1 = (dir, none) →
        ∀ pre post st1, (discoveryLoop w config pre ⟨GoMap.make, GoMap.make⟩).1 = .ok st1 →
          Discovery w config (pre ++ p :: post) =
            ((none, some (GoError.New ("Plugin \"" ++ p.Name ++ "\" not found in " ++ dir))),
              (discoveryLoop w config pre ⟨GoMap.make, GoMap.make⟩).2 ++
                ((FindPluginPath w (NewInstallConfig config p)).2 ++
                  (getPluginDir w config).2))) ∧
      (w.ManuallyInstalled (NewInstallConfig config p) = false →
        ∀ pre post st1, (discoveryLoop w config pre ⟨GoMap.make, GoMap.make⟩).1 = .ok st1 →
          Discovery w config (pre ++ p :: post) =
            ((none, some (GoError.New
                ("Plugin \"" ++ p.Name ++ "\" not found. Did you run \"tofulint --init\"?"))),
              (discoveryLoop w config pre ⟨GoMap.make, GoMap.make⟩).2 ++
                (FindPluginPath w (NewInstallConfig config p)).2)) := by
  constructor
  · intro hm dir hdir pre post st1 hpre
    have hc : pluginCommand w config p =
        (.error (some (GoError.New ("Plugin \"" ++ p.Name ++ "\" not found in " ++ dir))),
          (FindPluginPath w (NewInstallConfig config p)).2 ++ (getPluginDir w config).2) := by
      simp [pluginCommand, hnf, hname, hm, hdir]
    rw [Discovery_of_command_error_full w config pre post p st1 _ hpre (by rw [hc]), hc]
  · intro hm pre post st1 hpre
    have hc : pluginCommand w config p =
        (.error (some (GoError.New
            ("Plugin \"" ++ p.Name ++ "\" not found. Did you run \"tofulint --init\"?"))),
          (FindPluginPath w (NewInstallConfig config p)).2) := by
      simp [pluginCommand, hnf, hname, hm]
    rw [Discovery_of_command_error_full w config pre post p st1 _ hpre (by rw [hc]), hc]

theorem Discovery_plugin_not_found_witness :
    (⟨"azurerm", true, "", ""⟩ : PluginConfig).Name ≠ "terraform" ∧
      os.IsNotExist linuxWorld
        (FindPluginPath linuxWorld
          (NewInstallConfig ⟨"", []⟩ ⟨"azurerm", true, "", ""⟩)).1.2 = true ∧
      Discovery linuxWorld ⟨"", []⟩
          ([⟨"aws", true, "", ""⟩] ++ (⟨"azurerm", true, "", ""⟩ : PluginConfig) ::
            [⟨"google", true, "", ""⟩]) =
        ((none, some (GoError.New
            ("Plugin \"" ++ (⟨"azurerm", true, "", ""⟩ : PluginConfig).Name ++
              "\" not found in " ++ "/plugins"))),
          (discoveryLoop linuxWorld ⟨"", []⟩ [⟨"aws", true, "", ""⟩]
              ⟨GoMap.make, GoMap.make⟩).2 ++
            ((FindPluginPath linuxWorld
                (NewInstallConfig ⟨"", []⟩ ⟨"azurerm", true, "", ""⟩)).2 ++
              (getPluginDir linuxWorld ⟨"", []⟩).2)) ∧
      Discovery linuxWorld ⟨"", []⟩
          ([⟨"aws", true, "", ""⟩] ++ (⟨"azurerm", true, "0.25.1", "github.com/x/y"⟩ : PluginConfig) ::
            [⟨"google", true, "", ""⟩]) =
        ((none, some (GoError.New
            ("Plugin \"" ++ (⟨"azurerm", true, "0.25.1", "github.com/x/y"⟩ : PluginConfig).Name ++
              "\" not found. Did you run \"tofulint --init\"?"))),
          (discoveryLoop linuxWorld ⟨"", []⟩ [⟨"aws", true, "", ""⟩]
              ⟨GoMap.make, GoMap.make⟩).2 ++
            (FindPluginPath linuxWorld
              (NewInstallConfig ⟨"", []⟩ ⟨"azurerm", true, "0.25.1", "github.com/x/y"⟩)).2) :=
  ⟨by decide, rfl,
    (Discovery_plugin_not_found linuxWorld ⟨"", []⟩ ⟨"azurerm", true, "", ""⟩ (by decide)
      rfl).1 rfl "/plugins" rfl [⟨"aws", true, "", ""⟩] [⟨"google", true, "", ""⟩]
      ⟨⟨false, [("aws", ⟨exec.Command "/plugins/tflint-ruleset-aws" []⟩)]⟩,
        ⟨false, [("aws", ⟨1⟩)]⟩⟩ rfl,
    (Discovery_plugin_not_found linuxWorld ⟨"", []⟩
      ⟨"azurerm", true, "0.25.1", "github.com/x/y"⟩ (by decide) rfl).2 rfl
      [⟨"aws", true, "", ""⟩] [⟨"google", true, "", ""⟩]
      ⟨⟨false, [("aws", ⟨exec.Command "/plugins/tflint-ruleset-aws" []⟩)]⟩,
        ⟨false, [("aws", ⟨1⟩)]⟩⟩ rfl⟩

/-- C14 (as amended): `Discovery` returns either an error and no registry, or
a registry and no error. When it fails at some plugin after other plugins
were started, the caller receives `nil` in place of the registry: the handles
of the plugins already started are not returned. -/
theorem Discovery_error_or_registry (w : World) (config : Config)
    (order : List PluginConfig) :
    (∃ err, (Discovery w config order).1 = (none, some err)) ∨
      ∃ registry, (Discovery w config order).1 = (some registry, none) := by
  rw [Discovery_result]
  split
  · rename_i err herr
    have hne := discoveryLoop_error_ne_none w config order _ err herr
    cases err with
    | none => exact absurd rfl hne
    | some e => exact Or.inl ⟨e, rfl⟩
  · exact Or.inr ⟨_, rfl⟩

/-- C14 (as stated) fails: the plugin `aws` is started, the plugin `azurerm`
is then not found, and `Discovery` returns no registry. -/
theorem Discovery_error_or_registry_counterexample :
    Event.start ⟨exec.Command "/plugins/tflint-ruleset-aws" []⟩ ∈
        (Discovery linuxWorld ⟨"", []⟩
          [⟨"aws", true, "", ""⟩, ⟨"azurerm", true, "", ""⟩]).2 ∧
      (Discovery linuxWorld ⟨"", []⟩
          [⟨"aws", true, "", ""⟩, ⟨"azurerm", true, "", ""⟩]).1 =
        (none, some (GoError.New "Plugin \"azurerm\" not found in /plugins")) := by
  refine ⟨by decide, by decide⟩

/-- C16: for a configuration whose plugin map is empty, `Discovery` returns
no error and a registry whose two maps are not `nil` and have no entries, and
it makes no call: no path is resolved and nothing is started. -/
theorem Discovery_empty (w : World) (config : Config) (order : List PluginConfig)
    (hempty : config.Plugins = []) (horder : order.Perm config.Plugins) :
    Discovery w config order =
      ((some ⟨⟨false, []⟩, ⟨false, []⟩⟩, none), []) := by
  rw [hempty] at horder
  rw [List.Perm.eq_nil horder]
  rfl

theorem Discovery_empty_witness :
    (⟨"", []⟩ : Config).Plugins = [] ∧
      ([] : List PluginConfig).Perm (⟨"", []⟩ : Config).Plugins ∧
      Discovery linuxWorld ⟨"", []⟩ [] = ((some ⟨⟨false, []⟩, ⟨false, []⟩⟩, none), []) :=
  ⟨rfl, List.Perm.refl _, Discovery_empty linuxWorld ⟨"", []⟩ [] rfl (List.Perm.refl _)⟩

/-! ## `Discovery`: the keys of the registry -/

theorem GoMap.keys_set {V : Type} (m : GoMap V) (key : String) (v : V) :
    (m.set key v).keys = m.keys.filter (fun k => k != key) ++ [key] := by
  simp [GoMap.set, GoMap.keys, List.filter_map, Function.comp_def]

theorem GoMap.mem_keys_set {V : Type} (m : GoMap V) (key : String) (v : V) (name : String) :
    name ∈ (m.set key v).keys ↔ name ∈ m.keys ∨ name = key := by
  rw [GoMap.keys_set]
  by_cases h : name = key <;> simp [h]

theorem GoMap.nodup_keys_set {V : Type} (m : GoMap V) (key : String) (v : V)
    (h : m.keys.Nodup) : (m.set key v).keys.Nodup := by
  rw [GoMap.keys_set]
  refine List.Nodup.append (h.filter _) (List.nodup_singleton key) ?_
  intro k hk1 hk2
  simp at hk1 hk2
  exact hk1.2 hk2

theorem launch_ok_cases (w : World) (p : PluginConfig) (cmd : Cmd) (st st1 : Started)
    (h : (launch w p cmd st).1 = .ok st1) :
    (p.Enabled = false ∧ st1 = st) ∨
      (p.Enabled = true ∧ ∃ client ruleset,
        st1 = ⟨st.clients.set p.Name client, st.rulesets.set p.Name ruleset⟩) := by
  unfold launch at h
  split at h
  · rename_i hen
    simp only [] at h
    split at h
    · cases h
    · split at h
      · cases h
      · cases h
        exact Or.inr ⟨hen, _, _, rfl⟩
  · rename_i hen
    cases h
    exact Or.inl ⟨by simpa using hen, rfl⟩

/-- The keys of the two maps after the loop: they stay the same list, without
repetition, and a name is a key if it was one before or is the name of an
enabled entry that the loop has passed. -/
theorem discoveryLoop_keys (w : World) (config : Config) :
    ∀ (order : List PluginConfig) (st st2 : Started),
      (discoveryLoop w config order st).1 = .ok st2 →
      st.rulesets.keys = st.clients.keys → st.clients.keys.Nodup →
        st2.rulesets.keys = st2.clients.keys ∧ st2.clients.keys.Nodup ∧
          ∀ name, name ∈ st2.clients.keys ↔
            name ∈ st.clients.keys ∨ ∃ p ∈ order, p.Enabled = true ∧ p.Name = name
  | [], st, st2, h, heq, hnd => by
    simp only [discoveryLoop] at h
    cases h
    exact ⟨heq, hnd, by simp⟩
  | q :: rest, st, st2, h, heq, hnd => by
    rw [discoveryLoop_cons] at h
    split at h
    · cases h
    · rename_i cmd hcmd
      split at h
      · cases h
      · rename_i st1 hl
        rcases launch_ok_cases w q cmd st st1 hl with ⟨hen, rfl⟩ | ⟨hen, client, ruleset, rfl⟩
        · obtain ⟨h1, h2, h3⟩ := discoveryLoop_keys w config rest st1 st2 h heq hnd
          refine ⟨h1, h2, fun name => ?_⟩
          rw [h3 name]
          constructor
          · rintro (hm | ⟨p, hp, hpe, hpn⟩)
            · exact Or.inl hm
            · exact Or.inr ⟨p, List.mem_cons_of_mem _ hp, hpe, hpn⟩
          · rintro (hm | ⟨p, hp, hpe, hpn⟩)
            · exact Or.inl hm
            · rcases List.mem_cons.1 hp with rfl | hp1
              · rw [hen] at hpe
                cases hpe
              · exact Or.inr ⟨p, hp1, hpe, hpn⟩
        · have heq1 : (st.rulesets.set q.Name ruleset).keys =
              (st.clients.set q.Name client).keys := by
            rw [GoMap.keys_set, GoMap.keys_set, heq]
          obtain ⟨h1, h2, h3⟩ := discoveryLoop_keys w config rest _ st2 h heq1
            (GoMap.nodup_keys_set _ _ _ hnd)
          refine ⟨h1, h2, fun name => ?_⟩
          rw [h3 name]
          simp only [GoMap.mem_keys_set]
          constructor
          · rintro ((hm | hm) | ⟨p, hp, hpe, hpn⟩)
            · exact Or.inl hm
            · exact Or.inr ⟨q, List.mem_cons_self _ _, hen, hm.symm⟩
            · exact Or.inr ⟨p, List.mem_cons_of_mem _ hp, hpe, hpn⟩
          · rintro (hm | ⟨p, hp, hpe, hpn⟩)
            · exact Or.inl (Or.inl hm)
            · rcases List.mem_cons.1 hp with rfl | hp1
              · exact Or.inl (Or.inr hpn.symm)
              · exact Or.inr ⟨p, hp1, hpe, hpn⟩

/-- C12: when `Discovery` succeeds, the maps `RuleSets` and `clients` of the
registry have the same keys, each key once, and the keys are exactly the
names of the plugin entries of the configuration that are enabled: every
enabled plugin has an entry and a disabled plugin has none. -/
theorem Discovery_registry_keys (w : World) (config : Config) (order : List PluginConfig)
    (registry : Plugin) (horder : order.Perm config.Plugins)
    (hok : (Discovery w config order).1 = (some registry, none)) :
    registry.RuleSets.keys = registry.clients.keys ∧ registry.clients.keys.Nodup ∧
      ∀ name, name ∈ registry.clients.keys ↔
        ∃ p ∈ config.Plugins, p.Enabled = true ∧ p.Name = name := by
  rw [Discovery_result] at hok
  split at hok
  · cases hok
  · rename_i st hst
    cases hok
    obtain ⟨h1, h2, h3⟩ := discoveryLoop_keys w config order _ st hst rfl
      (by simp [GoMap.make, GoMap.keys])
    refine ⟨h1, h2, fun name => ?_⟩
    rw [h3 name]
    simp only [GoMap.make, GoMap.keys, List.map_nil, List.not_mem_nil, false_or]
    constructor
    · rintro ⟨p, hp, hpe⟩
      exact ⟨p, horder.mem_iff.1 hp, hpe⟩
    · rintro ⟨p, hp, hpe⟩
      exact ⟨p, horder.mem_iff.2 hp, hpe⟩

theorem Discovery_registry_keys_witness :
    ([⟨"terraform", false, "", ""⟩, ⟨"aws", true, "", ""⟩] : List PluginConfig).Perm
        (⟨"", [⟨"aws", true, "", ""⟩, ⟨"terraform", false, "", ""⟩]⟩ : Config).Plugins ∧
      (Discovery linuxWorld ⟨"", [⟨"aws", true, "", ""⟩, ⟨"terraform", false, "", ""⟩]⟩
          [⟨"terraform", false, "", ""⟩, ⟨"aws", true, "", ""⟩]).1 =
        (some ⟨⟨false, [("aws", ⟨1⟩)]⟩,
          ⟨false, [("aws", ⟨exec.Command "/plugins/tflint-ruleset-aws" []⟩)]⟩⟩, none) ∧
      (⟨⟨false, [("aws", ⟨1⟩)]⟩,
          ⟨false, [("aws", ⟨exec.Command "/plugins/tflint-ruleset-aws" []⟩)]⟩⟩ :
            Plugin).RuleSets.keys =
        (⟨⟨false, [("aws", ⟨1⟩)]⟩,
          ⟨false, [("aws", ⟨exec.Command "/plugins/tflint-ruleset-aws" []⟩)]⟩⟩ :
            Plugin).clients.keys :=
  ⟨List.Perm.swap _ _ _, by decide,
    (Discovery_registry_keys linuxWorld
      ⟨"", [⟨"aws", true, "", ""⟩, ⟨"terraform", false, "", ""⟩]⟩
      [⟨"terraform", false, "", ""⟩, ⟨"aws", true, "", ""⟩] _ (List.Perm.swap _ _ _)
      (by decide)).1⟩

/-! ## Which error `Discovery` returns -/

/-- Whether the start of a plugin fails, and with which error, does not
depend on the maps filled so far. -/
theorem launch_error_state (w : World) (p : PluginConfig) (cmd : Cmd) (st st1 : Started) :
    (match (launch w p cmd st).1 with
      | .error err => some err
      | .ok _ => none) =
    (match (launch w p cmd st1).1 with
      | .error err => some err
      | .ok _ => (none : Option (Option GoError))) := by
  cases hen : p.Enabled with
  | false => simp [launch, hen]
  | true =>
    cases hc : w.Client (host2plugin.NewClient cmd) with
    | error err => simp [launch, hen, hc]
    | ok rpc =>
      cases hd : w.Dispense rpc "ruleset" with
      | error err => simp [launch, hen, hc, hd]
      | ok ruleset => simp [launch, hen, hc, hd]

theorem entryOutcome_of_launch (w : World) (config : Config) (p : PluginConfig) (cmd : Cmd)
    (st : Started) (hcmd : (pluginCommand w config p).1 = .ok cmd) :
    entryOutcome w config p =
      match (launch w p cmd st).1 with
      | .error err => some err
      | .ok _ => none := by
  unfold entryOutcome
  rw [hcmd]
  exact launch_error_state w p cmd _ st

/-- The loop of `Discovery` returns at the first entry, in the order of the
visit, whose body returns, and with the error of that entry. -/
theorem discoveryLoop_error (w : World) (config : Config) :
    ∀ (order : List PluginConfig) (st : Started),
      (match (discoveryLoop w config order st).1 with
        | .error err => some err
        | .ok _ => none) = order.findSome? (entryOutcome w config)
  | [], _ => rfl
  | p :: rest, st => by
    rw [discoveryLoop_cons, List.findSome?_cons]
    cases hcmd : (pluginCommand w config p).1 with
    | error err => simp [entryOutcome, hcmd]
    | ok cmd =>
      rw [entryOutcome_of_launch w config p cmd st hcmd]
      cases hl : (launch w p cmd st).1 with
      | error err => simp only [hl]
      | ok st1 =>
        simp only [hl]
        exact discoveryLoop_error w config rest st1

theorem Discovery_error (w : World) (config : Config) (order : List PluginConfig) :
    (Discovery w config order).1.2 = (order.findSome? (entryOutcome w config)).join := by
  rw [Discovery_result, ← discoveryLoop_error w config order ⟨GoMap.make, GoMap.make⟩]
  cases (discoveryLoop w config order ⟨GoMap.make, GoMap.make⟩).1 <;> rfl

theorem findSome_of_agree {α β : Type} (f : α → Option β) (b : β) :
    ∀ (l : List α), (∃ a ∈ l, f a ≠ none) → (∀ a ∈ l, f a = none ∨ f a = some b) →
      l.findSome? f = some b
  | [], h, _ => by simp at h
  | a :: l, h, hall => by
    rw [List.findSome?_cons]
    rcases hall a (List.mem_cons_self _ _) with ha | ha
    · rw [ha]
      obtain ⟨c, hc, hcn⟩ := h
      rcases List.mem_cons.1 hc with rfl | hc1
      · exact absurd ha hcn
      · exact findSome_of_agree f b l ⟨c, hc1, hcn⟩
          (fun d hd => hall d (List.mem_cons_of_mem _ hd))
    · rw [ha]

theorem findSome_none_of_all {α β : Type} (f : α → Option β) (l : List α)
    (h : ∀ a ∈ l, f a = none) : l.findSome? f = none := by
  induction l with
  | nil => rfl
  | cons a l ih =>
    rw [List.findSome?_cons, h a (List.mem_cons_self _ _)]
    exact ih (fun d hd => h d (List.mem_cons_of_mem _ hd))

/-- C15 (as amended): the error that `Discovery` returns is the error of the
first plugin entry, in the order of the visit of the map, whose loop body
returns; and when no two entries of the configuration fail with different
errors, the error is the same for every order of the visit. -/
theorem Discovery_error_attribution (w : World) (config : Config)
    (order1 order2 : List PluginConfig)
    (h1 : order1.Perm config.Plugins) (h2 : order2.Perm config.Plugins) :
    (Discovery w config order1).1.2 = (order1.findSome? (entryOutcome w config)).join ∧
      ((∀ p ∈ config.Plugins, ∀ q ∈ config.Plugins, ∀ e1 e2,
          entryOutcome w config p = some e1 → entryOutcome w config q = some e2 → e1 = e2) →
        (Discovery w config order1).1.2 = (Discovery w config order2).1.2) := by
  refine ⟨Discovery_error w config order1, fun hsame => ?_⟩
  rw [Discovery_error, Discovery_error]
  by_cases hex : ∃ p ∈ config.Plugins, entryOutcome w config p ≠ none
  · obtain ⟨p, hp, hpn⟩ := hex
    obtain ⟨e, he⟩ := Option.ne_none_iff_exists'.1 hpn
    have hall : ∀ (order : List PluginConfig), order.Perm config.Plugins →
        order.findSome? (entryOutcome w config) = some e := by
      intro order ho
      apply findSome_of_agree _ _ _ ⟨p, ho.mem_iff.2 hp, hpn⟩
      intro q hq
      cases hqo : entryOutcome w config q with
      | none => exact Or.inl rfl
      | some e2 => exact Or.inr (by rw [hsame p hp q (ho.mem_iff.1 hq) e e2 he hqo])
    rw [hall order1 h1, hall order2 h2]
  · have hnone : ∀ (order : List PluginConfig), order.Perm config.Plugins →
        order.findSome? (entryOutcome w config) = none := by
      intro order ho
      apply findSome_none_of_all
      intro q hq
      by_contra hqn
      exact hex ⟨q, ho.mem_iff.1 hq, hqn⟩
    rw [hnone order1 h1, hnone order2 h2]

theorem Discovery_error_attribution_witness :
    ([⟨"azurerm", true, "", ""⟩, ⟨"aws", true, "", ""⟩] : List PluginConfig).Perm
        (⟨"", [⟨"aws", true, "", ""⟩, ⟨"azurerm", true, "", ""⟩]⟩ : Config).Plugins ∧
      ([⟨"aws", true, "", ""⟩, ⟨"azurerm", true, "", ""⟩] : List PluginConfig).Perm
        (⟨"", [⟨"aws", true, "", ""⟩, ⟨"azurerm", true, "", ""⟩]⟩ : Config).Plugins ∧
      (Discovery linuxWorld ⟨"", [⟨"aws", true, "", ""⟩, ⟨"azurerm", true, "", ""⟩]⟩
          [⟨"azurerm", true, "", ""⟩, ⟨"aws", true, "", ""⟩]).1.2 =
        some (GoError.New "Plugin \"azurerm\" not found in /plugins") ∧
      (Discovery linuxWorld ⟨"", [⟨"aws", true, "", ""⟩, ⟨"azurerm", true, "", ""⟩]⟩
          [⟨"azurerm", true, "", ""⟩, ⟨"aws", true, "", ""⟩]).1.2 =
        (Discovery linuxWorld ⟨"", [⟨"aws", true, "", ""⟩, ⟨"azurerm", true, "", ""⟩]⟩
          [⟨"aws", true, "", ""⟩, ⟨"azurerm", true, "", ""⟩]).1.2 :=
  ⟨List.Perm.swap _ _ _, List.Perm.refl _,
    (Discovery_error_attribution linuxWorld
      ⟨"", [⟨"aws", true, "", ""⟩, ⟨"azurerm", true, "", ""⟩]⟩
      [⟨"azurerm", true, "", ""⟩, ⟨"aws", true, "", ""⟩]
      [⟨"aws", true, "", ""⟩, ⟨"azurerm", true, "", ""⟩]
      (List.Perm.swap _ _ _) (List.Perm.refl _)).1.trans (by decide),
    (Discovery_error_attribution linuxWorld
      ⟨"", [⟨"aws", true, "", ""⟩, ⟨"azurerm", true, "", ""⟩]⟩
      [⟨"azurerm", true, "", ""⟩, ⟨"aws", true, "", ""⟩]
      [⟨"aws", true, "", ""⟩, ⟨"azurerm", true, "", ""⟩]
      (List.Perm.swap _ _ _) (List.Perm.refl _)).2 (by
        have ha : entryOutcome linuxWorld
            ⟨"", [⟨"aws", true, "", ""⟩, ⟨"azurerm", true, "", ""⟩]⟩ ⟨"aws", true, "", ""⟩ =
              none := by decide
        have hz : entryOutcome linuxWorld
            ⟨"", [⟨"aws", true, "", ""⟩, ⟨"azurerm", true, "", ""⟩]⟩
            ⟨"azurerm", true, "", ""⟩ =
              some (some (GoError.New "Plugin \"azurerm\" not found in /plugins")) := by decide
        intro p hp q hq e1 e2 hp1 hq1
        simp only [List.mem_cons, List.mem_singleton, List.not_mem_nil, or_false] at hp hq
        rcases hp with rfl | rfl
        · rw [ha] at hp1
          cases hp1
        · rcases hq with rfl | rfl
          · rw [ha] at hq1
            cases hq1
          · rw [hz] at hp1 hq1
            cases hp1
            cases hq1
            rfl)⟩

/-- C15 (as stated) fails: on a host where neither the plugin `azurerm` nor
the plugin `google` is installed, the error of `Discovery` names `azurerm`
when the map yields `azurerm` first and `google` when it yields `google`
first. -/
theorem Discovery_error_attribution_counterexample :
    ([⟨"google", true, "", ""⟩, ⟨"azurerm", true, "", ""⟩] : List PluginConfig).Perm
        [⟨"azurerm", true, "", ""⟩, ⟨"google", true, "", ""⟩] ∧
      (Discovery linuxWorld ⟨"", [⟨"azurerm", true, "", ""⟩, ⟨"google", true, "", ""⟩]⟩
          [⟨"azurerm", true, "", ""⟩, ⟨"google", true, "", ""⟩]).1 =
        (none, some (GoError.New "Plugin \"azurerm\" not found in /plugins")) ∧
      (Discovery linuxWorld ⟨"", [⟨"azurerm", true, "", ""⟩, ⟨"google", true, "", ""⟩]⟩
          [⟨"google", true, "", ""⟩, ⟨"azurerm", true, "", ""⟩]).1 =
        (none, some (GoError.New "Plugin \"google\" not found in /plugins")) := by
  refine ⟨List.Perm.swap _ _ _, by decide, by decide⟩

/-! ## The exit status -/

theorem any_meetsThreshold_iff (issues : List Issue) (threshold : Severity) :
    issues.any (meetsThreshold threshold) = true ↔
      ∃ issue ∈ issues, threshold.rank ≤ issue.Rule.Severity.rank := by
  simp [List.any_eq_true, meetsThreshold]

/-- C17: with the force mode off, the exit status is "error" whenever an
execution error is present, whatever the issues are; without an execution
error it is "issues found" exactly when an issue has a severity at or above
the threshold, and OK exactly when none has. An issue of a rule of severity
WARNING alone gives "issues found" under the thresholds NOTICE and WARNING
and OK under the threshold ERROR. -/
theorem exitStatus_derivation (issues : List Issue) (threshold : Severity) :
    (∀ err, exitStatus issues (some err) threshold false = .ExitCodeError) ∧
      (exitStatus issues none threshold false = .ExitCodeIssuesFound ↔
        ∃ issue ∈ issues, threshold.rank ≤ issue.Rule.Severity.rank) ∧
      (exitStatus issues none threshold false = .ExitCodeOK ↔
        ¬ ∃ issue ∈ issues, threshold.rank ≤ issue.Rule.Severity.rank) ∧
      (∀ issue : Issue, issue.Rule.Severity = .WARNING →
        exitStatus [issue] none .NOTICE false = .ExitCodeIssuesFound ∧
        exitStatus [issue] none .WARNING false = .ExitCodeIssuesFound ∧
        exitStatus [issue] none .ERROR false = .ExitCodeOK) := by
  refine ⟨fun _ => rfl, ?_, ?_, ?_⟩
  · rw [← any_meetsThreshold_iff]
    cases h : issues.any (meetsThreshold threshold) <;> simp [exitStatus, h]
  · rw [← any_meetsThreshold_iff]
    cases h : issues.any (meetsThreshold threshold) <;> simp [exitStatus, h]
  · intro issue h
    simp [exitStatus, meetsThreshold, h, Severity.rank]

theorem exitStatus_derivation_witness :
    exitStatus
        [⟨⟨"aws_s3_bucket_with_config_example", true, .WARNING, ""⟩,
          "bucket name is test, config=bucket", ⟨"main.tf", ⟨1, 1, 0⟩, ⟨1, 4, 3⟩⟩⟩]
        (some ⟨"failed to check \"aws_cloudformation_stack_error\" rule", none⟩)
        .ERROR false = .ExitCodeError ∧
      exitStatus
        [⟨⟨"aws_s3_bucket_with_config_example", true, .WARNING, ""⟩,
          "bucket name is test, config=bucket", ⟨"main.tf", ⟨1, 1, 0⟩, ⟨1, 4, 3⟩⟩⟩]
        none .NOTICE false = .ExitCodeIssuesFound ∧
      exitStatus
        [⟨⟨"aws_s3_bucket_with_config_example", true, .WARNING, ""⟩,
          "bucket name is test, config=bucket", ⟨"main.tf", ⟨1, 1, 0⟩, ⟨1, 4, 3⟩⟩⟩]
        none .WARNING false = .ExitCodeIssuesFound ∧
      exitStatus
        [⟨⟨"aws_s3_bucket_with_config_example", true, .WARNING, ""⟩,
          "bucket name is test, config=bucket", ⟨"main.tf", ⟨1, 1, 0⟩, ⟨1, 4, 3⟩⟩⟩]
        none .ERROR false = .ExitCodeOK :=
  ⟨(exitStatus_derivation _ .ERROR).1 _,
    (exitStatus_derivation
      [⟨⟨"aws_s3_bucket_with_config_example", true, .WARNING, ""⟩,
        "bucket name is test, config=bucket", ⟨"main.tf", ⟨1, 1, 0⟩, ⟨1, 4, 3⟩⟩⟩]
      .WARNING).2.2.2 _ rfl⟩

/-- C18: in the force mode, without an execution error, the exit status is
OK whatever the issues are, also when an issue is at or above the threshold,
and the report is the report of the same run without the force mode. -/
theorem force_mode_keeps_report {Report : Type}
    (render : List Issue → Option ExecutionError → Report) (issues : List Issue)
    (threshold : Severity) :
    (cliRun render issues none threshold true).2 = .ExitCodeOK ∧
      (cliRun render issues none threshold true).1 =
        (cliRun render issues none threshold false).1 := by
  refine ⟨?_, rfl⟩
  cases h : issues.any (meetsThreshold threshold) <;> simp [cliRun, exitStatus, h]

theorem force_mode_keeps_report_witness :
    (cliRun sarifPrint
        [⟨⟨"aws_instance_example_type", true, .ERROR, ""⟩, "instance type is t2.micro",
          ⟨"main.tf", ⟨1, 1, 0⟩, ⟨1, 4, 3⟩⟩⟩] none .ERROR false).2 = .ExitCodeIssuesFound ∧
      (cliRun sarifPrint
        [⟨⟨"aws_instance_example_type", true, .ERROR, ""⟩, "instance type is t2.micro",
          ⟨"main.tf", ⟨1, 1, 0⟩, ⟨1, 4, 3⟩⟩⟩] none .ERROR true).2 = .ExitCodeOK ∧
      (cliRun sarifPrint
        [⟨⟨"aws_instance_example_type", true, .ERROR, ""⟩, "instance type is t2.micro",
          ⟨"main.tf", ⟨1, 1, 0⟩, ⟨1, 4, 3⟩⟩⟩] none .ERROR true).1 =
        (cliRun sarifPrint
          [⟨⟨"aws_instance_example_type", true, .ERROR, ""⟩, "instance type is t2.micro",
            ⟨"main.tf", ⟨1, 1, 0⟩, ⟨1, 4, 3⟩⟩⟩] none .ERROR false).1 :=
  ⟨by decide, force_mode_keeps_report sarifPrint _ .ERROR⟩

/-! ## The report in the interchange format -/

/-- C19: the result rendered for an issue whose range has no end position
has one location, with the file reference of the range; the location has a
region with the start line and the start column and nothing else when the
start position is present, and no region when the start position is absent;
no end field is emitted, and the result stands in the section of the issues
at the place of the issue. -/
theorem sarifPrint_no_end (issues : List Issue) (err : Option ExecutionError) (i : Nat)
    (issue : Issue) (hi : issues[i]? = some issue) (hend : issue.Range.End.absent = true) :
    ∃ run errors result location,
      (sarifPrint issues err).runs = [run, errors] ∧ run.results[i]? = some result ∧
      result.locations = [location] ∧ location.uri = issue.Range.Filename ∧
      (issue.Range.Start.absent = false →
        location.region = some ⟨some issue.Range.Start.Line, some issue.Range.Start.Column,
          none, none, none, none⟩) ∧
      (issue.Range.Start.absent = true → location.region = none) ∧
      (∀ region, location.region = some region →
        region.endLine = none ∧ region.endColumn = none) := by
  refine ⟨_, _, issueResult issue, ⟨issue.Range.Filename, issueRegion issue.Range⟩, rfl, ?_,
    rfl, rfl, ?_, ?_, ?_⟩
  · simp [hi]
  · intro hs
    simp [issueRegion, hs, hend]
  · intro hs
    simp [issueRegion, hs]
  · intro region hr
    cases hs : issue.Range.Start.absent
    · simp only [issueRegion, hs, hend] at hr
      cases hr
      exact ⟨rfl, rfl⟩
    · simp [issueRegion, hs] at hr

theorem sarifPrint_no_end_witness :
    ∃ run errors result location,
      (sarifPrint [⟨testRule, "test", ⟨"test.tf", ⟨0, 0, 0⟩, ⟨0, 0, 0⟩⟩⟩,
          ⟨testRule, "test", ⟨"test.tf", ⟨3, 1, 10⟩, ⟨0, 0, 0⟩⟩⟩]
        (some ⟨"Failed to work; I don't feel like working", none⟩)).runs = [run, errors] ∧
      run.results[1]? = some result ∧
      result.locations = [location] ∧
      location.uri = (⟨"test.tf", ⟨3, 1, 10⟩, ⟨0, 0, 0⟩⟩ : hcl.Range).Filename ∧
      ((⟨"test.tf", ⟨3, 1, 10⟩, ⟨0, 0, 0⟩⟩ : hcl.Range).Start.absent = false →
        location.region = some ⟨some (⟨"test.tf", ⟨3, 1, 10⟩, ⟨0, 0, 0⟩⟩ : hcl.Range).Start.Line,
          some (⟨"test.tf", ⟨3, 1, 10⟩, ⟨0, 0, 0⟩⟩ : hcl.Range).Start.Column,
          none, none, none, none⟩) ∧
      ((⟨"test.tf", ⟨3, 1, 10⟩, ⟨0, 0, 0⟩⟩ : hcl.Range).Start.absent = true →
        location.region = none) ∧
      (∀ region, location.region = some region →
        region.endLine = none ∧ region.endColumn = none) :=
  sarifPrint_no_end _ _ 1 ⟨testRule, "test", ⟨"test.tf", ⟨3, 1, 10⟩, ⟨0, 0, 0⟩⟩⟩ rfl rfl

/-- C20: for an execution error that wraps a diagnostics bundle, the report
has the section of the issues and the section "tofulint-errors"; the second
has as many results as the bundle has tuples, the result at the place of a
tuple carries the level label of the severity of the tuple, its summary as
rule id, its detail as message and its range as the one location; and the
section of the issues holds the results of the issues, as without the
error. -/
theorem sarifPrint_diagnostics (issues : List Issue) (err : ExecutionError)
    (diags : List hcl.Diagnostic) (hdiags : err.Diagnostics = some diags) :
    ∃ run errors : SarifRun,
      (sarifPrint issues (some err)).runs = [run, errors] ∧
      errors.name = "tofulint-errors" ∧
      errors.results.length = diags.length ∧
      (∀ (i : Nat) (d : hcl.Diagnostic), diags[i]? = some d →
        ∃ result : SarifResult, errors.results[i]? = some result ∧
          result.level = d.Severity.level ∧ result.ruleId = d.Summary ∧
          result.message = d.Detail ∧
          result.locations = [⟨d.Subject.Filename,
            some ⟨some d.Subject.Start.Line, some d.Subject.Start.Column,
              some d.Subject.End.Line, some d.Subject.End.Column,
              some d.Subject.Start.Byte,
              some (d.Subject.End.Byte - d.Subject.Start.Byte)⟩⟩]) ∧
      run.name = "tofulint" ∧
      run.results.length = issues.length ∧
      (sarifPrint issues none).runs = [run, ⟨"tofulint-errors", []⟩] := by
  refine ⟨_, _, rfl, rfl, ?_, ?_, rfl, ?_, rfl⟩
  · simp [errorResults, hdiags]
  · intro i d hd
    exact ⟨diagnosticResult d, by simp [errorResults, hdiags, hd], rfl, rfl, rfl, rfl⟩
  · simp

theorem sarifPrint_diagnostics_witness :
    ∃ run errors : SarifRun,
      (sarifPrint [] (some ⟨"babel fish confused; filename:1,1-5,1: summary; detail",
        some [⟨.DiagWarning, "summary", "detail", ⟨"filename", ⟨1, 1, 0⟩, ⟨5, 1, 4⟩⟩⟩]⟩)).runs =
          [run, errors] ∧
      errors.name = "tofulint-errors" ∧
      errors.results.length =
        ([⟨.DiagWarning, "summary", "detail", ⟨"filename", ⟨1, 1, 0⟩, ⟨5, 1, 4⟩⟩⟩] :
          List hcl.Diagnostic).length ∧
      (∀ (i : Nat) (d : hcl.Diagnostic), ([⟨.DiagWarning, "summary", "detail", ⟨"filename", ⟨1, 1, 0⟩, ⟨5, 1, 4⟩⟩⟩] :
          List hcl.Diagnostic)[i]? = some d →
        ∃ result : SarifResult, errors.results[i]? = some result ∧
          result.level = d.Severity.level ∧ result.ruleId = d.Summary ∧
          result.message = d.Detail ∧
          result.locations = [⟨d.Subject.Filename,
            some ⟨some d.Subject.Start.Line, some d.Subject.Start.Column,
              some d.Subject.End.Line, some d.Subject.End.Column,
              some d.Subject.Start.Byte,
              some (d.Subject.End.Byte - d.Subject.Start.Byte)⟩⟩]) ∧
      run.name = "tofulint" ∧
      run.results.length = ([] : List Issue).length ∧
      (sarifPrint [] none).runs = [run, ⟨"tofulint-errors", []⟩] :=
  sarifPrint_diagnostics [] _ _ rfl

/-- The cases of `Test_sarifPrint` with an issue without positions, with an
error that is no diagnostics bundle and with a diagnostics bundle give the
results that the test expects. -/
theorem sarifPrint_test_cases :
    sarifPrint [⟨testRule, "test", ⟨"test.tf", ⟨0, 0, 0⟩, ⟨0, 0, 0⟩⟩⟩]
        (some ⟨"Failed to work; I don't feel like working", none⟩) =
      ⟨[⟨"tofulint", [⟨"test_rule", "error", "test", [⟨"test.tf", none⟩]⟩]⟩,
        ⟨"tofulint-errors",
          [⟨"application_error", "error", "Failed to work; I don't feel like working", []⟩]⟩]⟩ ∧
      sarifPrint [] (some ⟨"babel fish confused; filename:1,1-5,1: summary; detail",
          some [⟨.DiagWarning, "summary", "detail", ⟨"filename", ⟨1, 1, 0⟩, ⟨5, 1, 4⟩⟩⟩]⟩) =
        ⟨[⟨"tofulint", []⟩,
          ⟨"tofulint-errors", [⟨"summary", "warning", "detail",
            [⟨"filename", some ⟨some 1, some 1, some 5, some 1, some 0, some 4⟩⟩]⟩]⟩]⟩ ∧
      sarifPrint [⟨testRule, "test", ⟨"test.tf", ⟨1, 1, 0⟩, ⟨1, 4, 3⟩⟩⟩] none =
        ⟨[⟨"tofulint", [⟨"test_rule", "error", "test",
            [⟨"test.tf", some ⟨some 1, some 1, some 1, some 4, none, none⟩⟩]⟩]⟩,
          ⟨"tofulint-errors", []⟩]⟩ := by
  refine ⟨by decide, by decide, by decide⟩

/-! ## The path that `FindPluginPath` returns -/

/-- C24: when `FindPluginPath` succeeds, `getPluginDir` has returned a
directory, the returned path is the join of that directory and the install
path or, with `runtime.GOOS` equal to "windows" only, that join with ".exe"
appended, and `os.Stat` finds at the returned path a file that is not a
directory. -/
theorem FindPluginPath_success (w : World) (config : InstallConfig) (path : String)
    (h : (FindPluginPath w config).1 = (path, none)) :
    ∃ dir, (getPluginDir w config.globalConfig).1 = (dir, none) ∧
      (path = w.Join dir (w.InstallPath config) ∨
        (w.GOOS = "windows" ∧ path = w.Join dir (w.InstallPath config) ++ ".exe")) ∧
      w.Stat path = .ok ⟨false⟩ := by
  rw [FindPluginPath_eq] at h
  split at h
  · cases h
  · rename_i hdir
    refine ⟨(getPluginDir w config.globalConfig).1.1, Prod.ext rfl hdir, ?_⟩
    rcases findPluginPath_outcomes w
      (w.Join (getPluginDir w config.globalConfig).1.1 (w.InstallPath config)) with
      ⟨found, h1, h2, h3⟩ | ⟨err, h1, _⟩
    · rw [h1] at h
      cases h
      exact ⟨h3, h2⟩
    · rw [h1] at h
      cases h

theorem FindPluginPath_success_witness :
    (∃ dir, (getPluginDir linuxWorld
          (⟨⟨"", []⟩, ⟨"aws", true, "", ""⟩⟩ : InstallConfig).globalConfig).1 = (dir, none) ∧
        ("/plugins/tflint-ruleset-aws" = linuxWorld.Join dir
            (linuxWorld.InstallPath ⟨⟨"", []⟩, ⟨"aws", true, "", ""⟩⟩) ∨
          (linuxWorld.GOOS = "windows" ∧
            "/plugins/tflint-ruleset-aws" = linuxWorld.Join dir
              (linuxWorld.InstallPath ⟨⟨"", []⟩, ⟨"aws", true, "", ""⟩⟩) ++ ".exe")) ∧
        linuxWorld.Stat "/plugins/tflint-ruleset-aws" = .ok ⟨false⟩) ∧
      ∃ dir, (getPluginDir windowsWorld
          (⟨⟨"", []⟩, ⟨"aws", true, "", ""⟩⟩ : InstallConfig).globalConfig).1 = (dir, none) ∧
        ("/plugins/tflint-ruleset-aws.exe" = windowsWorld.Join dir
            (windowsWorld.InstallPath ⟨⟨"", []⟩, ⟨"aws", true, "", ""⟩⟩) ∨
          (windowsWorld.GOOS = "windows" ∧
            "/plugins/tflint-ruleset-aws.exe" = windowsWorld.Join dir
              (windowsWorld.InstallPath ⟨⟨"", []⟩, ⟨"aws", true, "", ""⟩⟩) ++ ".exe")) ∧
        windowsWorld.Stat "/plugins/tflint-ruleset-aws.exe" = .ok ⟨false⟩ :=
  ⟨FindPluginPath_success linuxWorld ⟨⟨"", []⟩, ⟨"aws", true, "", ""⟩⟩
      "/plugins/tflint-ruleset-aws" (by decide),
    FindPluginPath_success windowsWorld ⟨⟨"", []⟩, ⟨"aws", true, "", ""⟩⟩
      "/plugins/tflint-ruleset-aws.exe" (by decide)⟩

/-! ## `Discovery` and the flag `Enabled` -/

theorem FindPluginPath_congr (w : World) (c1 c2 : InstallConfig)
    (hcfg : c2.globalConfig = c1.globalConfig) (hpath : w.InstallPath c2 = w.InstallPath c1) :
    FindPluginPath w c2 = FindPluginPath w c1 := by
  simp only [FindPluginPath, hcfg, hpath]

/-- The command chosen for a plugin entry depends on the entry through its
name, its install path and its `ManuallyInstalled()` only. -/
theorem pluginCommand_congr (w : World) (config : Config) (p q : PluginConfig)
    (hname : q.Name = p.Name)
    (hpath : w.InstallPath (NewInstallConfig config q) =
      w.InstallPath (NewInstallConfig config p))
    (hman : w.ManuallyInstalled (NewInstallConfig config q) =
      w.ManuallyInstalled (NewInstallConfig config p)) :
    pluginCommand w config q = pluginCommand w config p := by
  have hf := FindPluginPath_congr w (NewInstallConfig config p) (NewInstallConfig config q)
    rfl hpath
  simp only [pluginCommand, hf, hname, hman]

/-- The error with which the loop of `Discovery` returns for an entry whose
binary is not found and for which the bundled plugin is not used. -/
theorem pluginCommand_not_found (w : World) (config : Config) (p : PluginConfig)
    (hnf : os.IsNotExist w (FindPluginPath w (NewInstallConfig config p)).1.2 = true)
    (hnb : ¬ (p.Name = "terraform" ∧ w.ManuallyInstalled (NewInstallConfig config p) = true)) :
    ∃ err, (pluginCommand w config p).1 = .error (some err) ∧
      ((w.ManuallyInstalled (NewInstallConfig config p) = true ∧
          ((getPluginDir w config).1.2 = some err ∨
            ((getPluginDir w config).1.2 = none ∧
              err = GoError.New ("Plugin \"" ++ p.Name ++ "\" not found in " ++
                (getPluginDir w config).1.1)))) ∨
        (w.ManuallyInstalled (NewInstallConfig config p) = false ∧
          err = GoError.New
            ("Plugin \"" ++ p.Name ++ "\" not found. Did you run \"tofulint --init\"?"))) := by
  cases hm : w.ManuallyInstalled (NewInstallConfig config p) with
  | false =>
    exact ⟨_, by simp [pluginCommand, hnf, hm], Or.inr ⟨rfl, rfl⟩⟩
  | true =>
    have hname : p.Name ≠ "terraform" := fun h => hnb ⟨h, hm⟩
    cases hd : (getPluginDir w config).1.2 with
    | some err =>
      exact ⟨err, by simp [pluginCommand, hnf, hm, hname, hd], Or.inl ⟨rfl, Or.inl rfl⟩⟩
    | none =>
      exact ⟨_, by simp [pluginCommand, hnf, hm, hname, hd], Or.inl ⟨rfl, Or.inr ⟨rfl, rfl⟩⟩⟩

/-- When the body of the loop returns for some entry of the order,
`Discovery` returns no registry and an error. -/
theorem Discovery_fails_of_entry (w : World) (config : Config) (order : List PluginConfig)
    (p : PluginConfig) (hp : p ∈ order) (hout : entryOutcome w config p ≠ none) :
    ∃ err, (Discovery w config order).1 = (none, some err) := by
  have hloop := discoveryLoop_error w config order ⟨GoMap.make, GoMap.make⟩
  rw [Discovery_result]
  cases hl : (discoveryLoop w config order ⟨GoMap.make, GoMap.make⟩).1 with
  | error e =>
    have hne := discoveryLoop_error_ne_none w config order _ e hl
    cases e with
    | none => exact absurd rfl hne
    | some err => exact ⟨err, rfl⟩
  | ok st =>
    rw [hl] at hloop
    have hnone := List.findSome?_eq_none_iff.1 hloop.symm p hp
    exact absurd hnone hout

theorem entryOutcome_of_command_error (w : World) (config : Config) (p : PluginConfig)
    (e : Option GoError) (h : (pluginCommand w config p).1 = .error e) :
    entryOutcome w config p = some e := by
  simp [entryOutcome, h]

/-- C21: for a plugin entry whose binary is not found and for which the
bundled plugin is not used, and for the entry that differs from it in the
flag `Enabled` only (with the same install path and the same
`ManuallyInstalled()`), `Discovery` returns no registry and one and the same
error once its loop reaches the entry: the `not found in <dir>` message (or
the error of `getPluginDir`) for a manually installed plugin, and the
`tofulint --init` message otherwise. In every order of the visit that holds
either entry, `Discovery` fails. -/
theorem Discovery_not_found_ignores_Enabled (w : World) (config : Config)
    (name version source : String) (enabled : Bool)
    (hpath : w.InstallPath (NewInstallConfig config ⟨name, !enabled, version, source⟩) =
      w.InstallPath (NewInstallConfig config ⟨name, enabled, version, source⟩))
    (hman : w.ManuallyInstalled (NewInstallConfig config ⟨name, !enabled, version, source⟩) =
      w.ManuallyInstalled (NewInstallConfig config ⟨name, enabled, version, source⟩))
    (hnf : os.IsNotExist w
      (FindPluginPath w (NewInstallConfig config ⟨name, enabled, version, source⟩)).1.2 = true)
    (hnb : ¬ (name = "terraform" ∧
      w.ManuallyInstalled (NewInstallConfig config ⟨name, enabled, version, source⟩) = true)) :
    ∃ err,
      ((w.ManuallyInstalled (NewInstallConfig config ⟨name, enabled, version, source⟩) = true ∧
          ((getPluginDir w config).1.2 = some err ∨
            ((getPluginDir w config).1.2 = none ∧
              err = GoError.New ("Plugin \"" ++ name ++ "\" not found in " ++
                (getPluginDir w config).1.1)))) ∨
        (w.ManuallyInstalled (NewInstallConfig config ⟨name, enabled, version, source⟩) = false ∧
          err = GoError.New
            ("Plugin \"" ++ name ++ "\" not found. Did you run \"tofulint --init\"?"))) ∧
      (∀ pre post st1, (discoveryLoop w config pre ⟨GoMap.make, GoMap.make⟩).1 = .ok st1 →
        (Discovery w config (pre ++ ⟨name, enabled, version, source⟩ :: post)).1 =
            (none, some err) ∧
          (Discovery w config (pre ++ ⟨name, !enabled, version, source⟩ :: post)).1 =
            (none, some err)) ∧
      (∀ order, (⟨name, enabled, version, source⟩ ∈ order ∨
          ⟨name, !enabled, version, source⟩ ∈ order) →
        ∃ e, (Discovery w config order).1 = (none, some e)) := by
  obtain ⟨err, hcmd, hshape⟩ :=
    pluginCommand_not_found w config ⟨name, enabled, version, source⟩ hnf hnb
  have hcmd2 : (pluginCommand w config ⟨name, !enabled, version, source⟩).1 =
      .error (some err) := by
    rw [pluginCommand_congr w config ⟨name, enabled, version, source⟩
      ⟨name, !enabled, version, source⟩ rfl hpath hman, hcmd]
  refine ⟨err, hshape, fun pre post st1 hpre => ⟨?_, ?_⟩, fun order hmem => ?_⟩
  · exact Discovery_of_command_error w config pre post _ st1 _ hpre hcmd
  · exact Discovery_of_command_error w config pre post _ st1 _ hpre hcmd2
  · rcases hmem with hmem | hmem
    · exact Discovery_fails_of_entry w config order _ hmem
        (by rw [entryOutcome_of_command_error w config _ _ hcmd]; simp)
    · exact Discovery_fails_of_entry w config order _ hmem
        (by rw [entryOutcome_of_command_error w config _ _ hcmd2]; simp)

theorem Discovery_not_found_ignores_Enabled_witness :
    (Discovery linuxWorld ⟨"", []⟩
        ([⟨"aws", true, "", ""⟩] ++ (⟨"azurerm", false, "", ""⟩ : PluginConfig) :: [])).1 =
      (none, some (GoError.New "Plugin \"azurerm\" not found in /plugins")) ∧
    (Discovery linuxWorld ⟨"", []⟩
        ([⟨"aws", true, "", ""⟩] ++ (⟨"azurerm", !false, "", ""⟩ : PluginConfig) :: [])).1 =
      (none, some (GoError.New "Plugin \"azurerm\" not found in /plugins")) := by
  obtain ⟨err, hshape, hD, _⟩ := Discovery_not_found_ignores_Enabled linuxWorld ⟨"", []⟩
    "azurerm" "" "" false rfl rfl (by decide) (by decide)
  have hdir : (getPluginDir linuxWorld ⟨"", []⟩).1 = ("/plugins", none) := by decide
  have herr : err = GoError.New "Plugin \"azurerm\" not found in /plugins" := by
    rcases hshape with ⟨_, h | ⟨_, h⟩⟩ | ⟨h, _⟩
    · rw [hdir] at h
      cases h
    · rw [hdir] at h
      exact h
    · exact absurd h (by decide)
  rw [← herr]
  exact hD [⟨"aws", true, "", ""⟩] []
    ⟨GoMap.make.set "aws" (host2plugin.NewClient (exec.Command "/plugins/tflint-ruleset-aws" [])),
      GoMap.make.set "aws" ⟨1⟩⟩ rfl

/-! ## Resolution errors that are not not-exist errors -/

theorem FindPluginPath_error_path (w : World) (config : InstallConfig) (err : GoError)
    (h : (FindPluginPath w config).1.2 = some err) : (FindPluginPath w config).1.1 = "" := by
  rw [FindPluginPath_eq] at h ⊢
  split
  · rfl
  · rename_i hdir
    rw [hdir] at h
    simp only [] at h ⊢
    split
    · rfl
    · rename_i hnone
      rw [hnone] at h
      cases h

/-- C22: when the resolution of the path of a plugin entry fails with an
error that is not a not-exist error, the loop of `Discovery` does not return
at the resolution: the command is built from the empty path and the entry
goes on to the start of the plugin with that command, the resolution error
being dropped. For a disabled entry the loop goes on to the next entry with
the maps unchanged, and `Discovery` returns the registry and no error when
the entry is the last one. -/
theorem Discovery_drops_other_resolution_errors (w : World) (config : Config)
    (p : PluginConfig) (err : GoError)
    (herr : (FindPluginPath w (NewInstallConfig config p)).1.2 = some err)
    (hne : os.IsNotExist w (some err) = false) :
    pluginCommand w config p =
        (.ok (exec.Command "" []), (FindPluginPath w (NewInstallConfig config p)).2) ∧
      (∀ rest st, (discoveryLoop w config (p :: rest) st).1 =
        match (launch w p (exec.Command "" []) st).1 with
        | .error e => .error e
        | .ok st1 => (discoveryLoop w config rest st1).1) ∧
      (p.Enabled = false →
        (∀ rest st, discoveryLoop w config (p :: rest) st =
          ((discoveryLoop w config rest st).1,
            (FindPluginPath w (NewInstallConfig config p)).2 ++
              (discoveryLoop w config rest st).2)) ∧
        ∀ pre st1, (discoveryLoop w config pre ⟨GoMap.make, GoMap.make⟩).1 = .ok st1 →
          (Discovery w config (pre ++ [p])).1 = (some ⟨st1.rulesets, st1.clients⟩, none)) := by
  have hpath := FindPluginPath_error_path w (NewInstallConfig config p) err herr
  have hcmd : pluginCommand w config p =
      (.ok (exec.Command "" []), (FindPluginPath w (NewInstallConfig config p)).2) := by
    simp [pluginCommand, herr, hne, hpath]
  refine ⟨hcmd, fun rest st => ?_, fun hdis => ⟨fun rest st => ?_, fun pre st1 hpre => ?_⟩⟩
  · rw [discoveryLoop_cons, hcmd]
  · have hl : launch w p (exec.Command "" []) st = (.ok st, []) := by simp [launch, hdis]
    rw [discoveryLoop_cons_full, hcmd]
    simp only [hl, List.append_nil]
  · have hl : (launch w p (exec.Command "" []) st1).1 = .ok st1 := by simp [launch, hdis]
    exact Discovery_of_launch_ok w config pre p st1 st1 _ hpre (by rw [hcmd]) hl

theorem Discovery_drops_other_resolution_errors_witness :
    (FindPluginPath permissionWorld (NewInstallConfig ⟨"", []⟩ ⟨"aws", false, "", ""⟩)).1.2 =
        some (GoError.PathError "stat" "/plugins/tflint-ruleset-aws"
          (GoError.Errno 13 "permission denied")) ∧
      pluginCommand permissionWorld ⟨"", []⟩ ⟨"aws", false, "", ""⟩ =
        (.ok (exec.Command "" []),
          [Event.getenv "TOFULINT_PLUGIN_DIR", Event.stat "/plugins/tflint-ruleset-aws"]) ∧
      (Discovery permissionWorld ⟨"", []⟩ ([] ++ [⟨"aws", false, "", ""⟩])).1 =
        (some ⟨GoMap.make, GoMap.make⟩, none) ∧
      pluginCommand expandFailsWorld ⟨"~/plugins", []⟩ ⟨"aws", false, "", ""⟩ =
        (.ok (exec.Command "" []), [Event.expand "~/plugins"]) :=
  ⟨rfl,
    (Discovery_drops_other_resolution_errors permissionWorld ⟨"", []⟩ ⟨"aws", false, "", ""⟩
      _ rfl (by decide)).1,
    ((Discovery_drops_other_resolution_errors permissionWorld ⟨"", []⟩ ⟨"aws", false, "", ""⟩
      _ rfl (by decide)).2.2 rfl).2 [] ⟨GoMap.make, GoMap.make⟩ rfl,
    (Discovery_drops_other_resolution_errors expandFailsWorld ⟨"~/plugins", []⟩
      ⟨"aws", false, "", ""⟩ (GoError.New "cannot expand user-specific home dir") rfl
      (by decide)).1⟩

/-! ## The registry and the order of the visit -/

theorem GoMap.get_set {V : Type} (m : GoMap V) (key : String) (v : V) (name : String) :
    (m.set key v).get name = if key = name then some v else m.get name := by
  simp only [GoMap.get, GoMap.set, List.find?_append]
  by_cases h : key = name
  · subst h
    have hnone : (m.entries.filter (fun e => e.1 != key)).find? (fun e => e.1 == key) = none := by
      rw [List.find?_eq_none]
      intro e he
      have := (List.mem_filter.1 he).2
      simpa using this
    simp [hnone]
  · have hsame : (m.entries.filter (fun e => e.1 != key)).find? (fun e => e.1 == name) =
        m.entries.find? (fun e => e.1 == name) := by
      induction m.entries with
      | nil => rfl
      | cons e es ih =>
        by_cases hk : e.1 = key
        · have hn : ¬ e.1 = name := fun hn => h (hk.symm.trans hn)
          simp [List.filter_cons, hk, List.find?_cons, hn, h, ← ih]
        · by_cases hn : e.1 = name
          · have hnk : ¬ name = key := fun hh => h hh.symm
            simp [List.filter_cons, List.find?_cons, hn, hnk]
          · simp [List.filter_cons, hk, List.find?_cons, hn, ← ih]
    simp [hsame, h]

theorem launch_ok_handles (w : World) (p : PluginConfig) (cmd : Cmd) (st st1 : Started)
    (hen : p.Enabled = true) (h : (launch w p cmd st).1 = .ok st1) :
    ∃ rpc ruleset, w.Client (host2plugin.NewClient cmd) = .ok rpc ∧
      w.Dispense rpc "ruleset" = .ok ruleset ∧
      st1 = ⟨st.clients.set p.Name (host2plugin.NewClient cmd),
        st.rulesets.set p.Name ruleset⟩ := by
  cases hc : w.Client (host2plugin.NewClient cmd) with
  | error err => simp [launch, hen, hc] at h
  | ok rpc =>
    cases hd : w.Dispense rpc "ruleset" with
    | error err => simp [launch, hen, hc, hd] at h
    | ok ruleset =>
      simp only [launch, hen, hc, hd, if_true] at h
      cases h
      exact ⟨rpc, ruleset, rfl, hd, rfl⟩

theorem launch_ok_disabled (w : World) (p : PluginConfig) (cmd : Cmd) (st st1 : Started)
    (hen : p.Enabled = false) (h : (launch w p cmd st).1 = .ok st1) : st1 = st := by
  simp [launch, hen] at h
  cases h
  rfl

/-- The loop of `Discovery` leaves the entries of the maps under a name
alone when no enabled entry of the order has that name. -/
theorem discoveryLoop_get_other (w : World) (config : Config) (name : String) :
    ∀ (order : List PluginConfig) (st st2 : Started),
      (discoveryLoop w config order st).1 = .ok st2 →
      (∀ q ∈ order, q.Enabled = true → q.Name ≠ name) →
        st2.clients.get name = st.clients.get name ∧
          st2.rulesets.get name = st.rulesets.get name
  | [], st, st2, h, _ => by
    simp [discoveryLoop] at h
    cases h
    exact ⟨rfl, rfl⟩
  | q :: rest, st, st2, h, hall => by
    rw [discoveryLoop_cons] at h
    split at h
    · cases h
    · rename_i cmd hcmd
      split at h
      · cases h
      · rename_i st1 hl
        obtain ⟨h1, h2⟩ := discoveryLoop_get_other w config name rest st1 st2 h
          (fun r hr => hall r (List.mem_cons_of_mem _ hr))
        cases hen : q.Enabled with
        | false =>
          rw [launch_ok_disabled w q cmd st st1 hen hl] at h1 h2
          exact ⟨h1, h2⟩
        | true =>
          obtain ⟨rpc, ruleset, _, _, hst1⟩ := launch_ok_handles w q cmd st st1 hen hl
          have hne := hall q (List.mem_cons_self _ _) hen
          rw [h1, h2, hst1]
          simp [GoMap.get_set, hne]

/-- The loop of `Discovery` stores under the name of an enabled entry the
handles of that entry, when no other enabled entry of the order has the
name. -/
theorem discoveryLoop_get_entry (w : World) (config : Config) (name : String)
    (p : PluginConfig) (hpen : p.Enabled = true) (hpname : p.Name = name) :
    ∀ (order : List PluginConfig) (st st2 : Started),
      (discoveryLoop w config order st).1 = .ok st2 →
      (∀ q ∈ order, q.Enabled = true → q.Name = name → q = p) →
      (p ∈ order ∨ ∃ c r, entryHandles w config p = some (c, r) ∧
        st.clients.get name = some c ∧ st.rulesets.get name = some r) →
        ∃ c r, entryHandles w config p = some (c, r) ∧
          st2.clients.get name = some c ∧ st2.rulesets.get name = some r
  | [], st, st2, h, _, hstart => by
    simp [discoveryLoop] at h
    cases h
    rcases hstart with hmem | hstart
    · exact absurd hmem (List.not_mem_nil _)
    · exact hstart
  | q :: rest, st, st2, h, huniq, hstart => by
    rw [discoveryLoop_cons] at h
    split at h
    · cases h
    · rename_i cmd hcmd
      split at h
      · cases h
      · rename_i st1 hl
        have hrest : ∀ r ∈ rest, r.Enabled = true → r.Name = name → r = p :=
          fun r hr => huniq r (List.mem_cons_of_mem _ hr)
        by_cases hq : q.Enabled = true ∧ q.Name = name
        · have hqp : q = p := huniq q (List.mem_cons_self _ _) hq.1 hq.2
          subst hqp
          obtain ⟨rpc, ruleset, hc, hd, hst1⟩ := launch_ok_handles w q cmd st st1 hq.1 hl
          apply discoveryLoop_get_entry w config name q hpen hpname rest st1 st2 h hrest
          refine Or.inr ⟨host2plugin.NewClient cmd, ruleset, ?_, ?_, ?_⟩
          · simp [entryHandles, hcmd, hc, hd]
          · rw [hst1]
            simp [GoMap.get_set, hpname]
          · rw [hst1]
            simp [GoMap.get_set, hpname]
        · have hpq : p ≠ q := by
            intro hpq
            subst hpq
            exact hq ⟨hpen, hpname⟩
          have hsame : st1.clients.get name = st.clients.get name ∧
              st1.rulesets.get name = st.rulesets.get name := by
            cases hen : q.Enabled with
            | false =>
              rw [launch_ok_disabled w q cmd st st1 hen hl]
              exact ⟨rfl, rfl⟩
            | true =>
              obtain ⟨rpc, ruleset, _, _, hst1⟩ := launch_ok_handles w q cmd st st1 hen hl
              have hne : q.Name ≠ name := fun hn => hq ⟨hen, hn⟩
              rw [hst1]
              simp [GoMap.get_set, hne]
          apply discoveryLoop_get_entry w config name p hpen hpname rest st1 st2 h hrest
          rcases hstart with hmem | ⟨c, r, he, hc, hr⟩
          · rcases List.mem_cons.1 hmem with hpq1 | hmem1
            · exact absurd hpq1 hpq
            · exact Or.inl hmem1
          · exact Or.inr ⟨c, r, he, by rw [hsame.1, hc], by rw [hsame.2, hr]⟩

/-- Discovery succeeds exactly when the body of the loop returns for no entry
of the order. -/
theorem Discovery_succeeds_iff (w : World) (config : Config) (order : List PluginConfig) :
    (∃ registry, (Discovery w config order).1 = (some registry, none)) ↔
      ∀ p ∈ order, entryOutcome w config p = none := by
  constructor
  · rintro ⟨registry, hreg⟩ p hp
    by_contra hout
    obtain ⟨err, herr⟩ := Discovery_fails_of_entry w config order p hp hout
    rw [hreg] at herr
    cases herr
  · intro hall
    have hloop := discoveryLoop_error w config order ⟨GoMap.make, GoMap.make⟩
    rw [findSome_none_of_all _ _ hall] at hloop
    rw [Discovery_result]
    cases hl : (discoveryLoop w config order ⟨GoMap.make, GoMap.make⟩).1 with
    | error e =>
      rw [hl] at hloop
      cases hloop
    | ok st => exact ⟨_, rfl⟩

theorem Discovery_ok_loop (w : World) (config : Config) (order : List PluginConfig)
    (registry : Plugin) (hok : (Discovery w config order).1 = (some registry, none)) :
    ∃ st, (discoveryLoop w config order ⟨GoMap.make, GoMap.make⟩).1 = .ok st ∧
      registry = ⟨st.rulesets, st.clients⟩ := by
  rw [Discovery_result] at hok
  split at hok
  · cases hok
  · rename_i st hst
    cases hok
    exact ⟨st, hst, rfl⟩

/-- C23: for a configuration whose plugin entries have distinct names, on a
fixed host, `Discovery` succeeds for one order of the visit of the plugin map
exactly when it succeeds for every other; and when it succeeds for two
orders, the two registries have the same keys and hold under every name the
same process handle and the same rule set. -/
theorem Discovery_order_independent (w : World) (config : Config)
    (order1 order2 : List PluginConfig)
    (h1 : order1.Perm config.Plugins) (h2 : order2.Perm config.Plugins)
    (hnames : (config.Plugins.map (fun p => p.Name)).Nodup) :
    ((∃ registry, (Discovery w config order1).1 = (some registry, none)) ↔
        ∃ registry, (Discovery w config order2).1 = (some registry, none)) ∧
      ∀ registry1 registry2,
        (Discovery w config order1).1 = (some registry1, none) →
        (Discovery w config order2).1 = (some registry2, none) →
        ∀ name,
          registry1.clients.get name = registry2.clients.get name ∧
          registry1.RuleSets.get name = registry2.RuleSets.get name ∧
          (name ∈ registry1.clients.keys ↔ name ∈ registry2.clients.keys) ∧
          (name ∈ registry1.RuleSets.keys ↔ name ∈ registry2.RuleSets.keys) := by
  constructor
  · rw [Discovery_succeeds_iff, Discovery_succeeds_iff]
    constructor
    · intro h p hp
      exact h p (h1.mem_iff.2 (h2.mem_iff.1 hp))
    · intro h p hp
      exact h p (h2.mem_iff.2 (h1.mem_iff.1 hp))
  · intro registry1 registry2 hok1 hok2 name
    obtain ⟨st1, hl1, hr1⟩ := Discovery_ok_loop w config order1 registry1 hok1
    obtain ⟨st2, hl2, hr2⟩ := Discovery_ok_loop w config order2 registry2 hok2
    subst hr1
    subst hr2
    have hget : st1.clients.get name = st2.clients.get name ∧
        st1.rulesets.get name = st2.rulesets.get name := by
      by_cases hex : ∃ p ∈ config.Plugins, p.Enabled = true ∧ p.Name = name
      · obtain ⟨p, hp, hpen, hpname⟩ := hex
        have huniq : ∀ q ∈ config.Plugins, q.Enabled = true → q.Name = name → q = p := by
          intro q hq _ hqname
          exact List.inj_on_of_nodup_map hnames hq hp (hqname.trans hpname.symm)
        obtain ⟨c1, r1, he1, hc1, hrs1⟩ := discoveryLoop_get_entry w config name p hpen hpname
          order1 _ st1 hl1 (fun q hq => huniq q (h1.mem_iff.1 hq)) (Or.inl (h1.mem_iff.2 hp))
        obtain ⟨c2, r2, he2, hc2, hrs2⟩ := discoveryLoop_get_entry w config name p hpen hpname
          order2 _ st2 hl2 (fun q hq => huniq q (h2.mem_iff.1 hq)) (Or.inl (h2.mem_iff.2 hp))
        rw [he1] at he2
        cases he2
        exact ⟨by rw [hc1, hc2], by rw [hrs1, hrs2]⟩
      · have hnone : ∀ q ∈ config.Plugins, q.Enabled = true → q.Name ≠ name :=
          fun q hq hqen hqname => hex ⟨q, hq, hqen, hqname⟩
        obtain ⟨ha1, hb1⟩ := discoveryLoop_get_other w config name order1 _ st1 hl1
          (fun q hq => hnone q (h1.mem_iff.1 hq))
        obtain ⟨ha2, hb2⟩ := discoveryLoop_get_other w config name order2 _ st2 hl2
          (fun q hq => hnone q (h2.mem_iff.1 hq))
        exact ⟨by rw [ha1, ha2], by rw [hb1, hb2]⟩
    obtain ⟨hk1, _, hm1⟩ := discoveryLoop_keys w config order1 _ st1 hl1 rfl
      (by simp [GoMap.make, GoMap.keys])
    obtain ⟨hk2, _, hm2⟩ := discoveryLoop_keys w config order2 _ st2 hl2 rfl
      (by simp [GoMap.make, GoMap.keys])
    have hkeys : name ∈ st1.clients.keys ↔ name ∈ st2.clients.keys := by
      rw [hm1 name, hm2 name]
      constructor
      · rintro (h | ⟨p, hp, hpe⟩)
        · exact Or.inl h
        · exact Or.inr ⟨p, h2.mem_iff.2 (h1.mem_iff.1 hp), hpe⟩
      · rintro (h | ⟨p, hp, hpe⟩)
        · exact Or.inl h
        · exact Or.inr ⟨p, h1.mem_iff.2 (h2.mem_iff.1 hp), hpe⟩
    refine ⟨hget.1, hget.2, hkeys, ?_⟩
    show name ∈ st1.rulesets.keys ↔ name ∈ st2.rulesets.keys
    rw [hk1, hk2]
    exact hkeys

theorem Discovery_order_independent_witness :
    ([⟨"terraform", true, "", ""⟩, ⟨"aws", true, "", ""⟩] : List PluginConfig).Perm
        (⟨"", [⟨"aws", true, "", ""⟩, ⟨"terraform", true, "", ""⟩]⟩ : Config).Plugins ∧
      (Discovery linuxWorld ⟨"", [⟨"aws", true, "", ""⟩, ⟨"terraform", true, "", ""⟩]⟩
          [⟨"terraform", true, "", ""⟩, ⟨"aws", true, "", ""⟩]).1 =
        (some ⟨⟨false, [("terraform", ⟨2⟩), ("aws", ⟨1⟩)]⟩,
          ⟨false, [("terraform",
              host2plugin.NewClient (exec.Command "/usr/bin/tofulint" ["--act-as-bundled-plugin"])),
            ("aws", host2plugin.NewClient (exec.Command "/plugins/tflint-ruleset-aws" []))]⟩⟩,
          none) ∧
      (Discovery linuxWorld ⟨"", [⟨"aws", true, "", ""⟩, ⟨"terraform", true, "", ""⟩]⟩
          [⟨"aws", true, "", ""⟩, ⟨"terraform", true, "", ""⟩]).1 =
        (some ⟨⟨false, [("aws", ⟨1⟩), ("terraform", ⟨2⟩)]⟩,
          ⟨false, [("aws", host2plugin.NewClient (exec.Command "/plugins/tflint-ruleset-aws" [])),
            ("terraform",
              host2plugin.NewClient
                (exec.Command "/usr/bin/tofulint" ["--act-as-bundled-plugin"]))]⟩⟩,
          none) ∧
      ∀ name,
        (⟨false, [("terraform",
              host2plugin.NewClient (exec.Command "/usr/bin/tofulint" ["--act-as-bundled-plugin"])),
            ("aws", host2plugin.NewClient (exec.Command "/plugins/tflint-ruleset-aws" []))]⟩ :
          GoMap PluginClient).get name =
        (⟨false, [("aws", host2plugin.NewClient (exec.Command "/plugins/tflint-ruleset-aws" [])),
            ("terraform",
              host2plugin.NewClient
                (exec.Command "/usr/bin/tofulint" ["--act-as-bundled-plugin"]))]⟩ :
          GoMap PluginClient).get name :=
  ⟨List.Perm.swap _ _ _, by decide, by decide,
    fun name => ((Discovery_order_independent linuxWorld
      ⟨"", [⟨"aws", true, "", ""⟩, ⟨"terraform", true, "", ""⟩]⟩
      [⟨"terraform", true, "", ""⟩, ⟨"aws", true, "", ""⟩]
      [⟨"aws", true, "", ""⟩, ⟨"terraform", true, "", ""⟩]
      (List.Perm.swap _ _ _) (List.Perm.refl _) (by decide)).2
      ⟨⟨false, [("terraform", ⟨2⟩), ("aws", ⟨1⟩)]⟩,
        ⟨false, [("terraform",
            host2plugin.NewClient (exec.Command "/usr/bin/tofulint" ["--act-as-bundled-plugin"])),
          ("aws", host2plugin.NewClient (exec.Command "/plugins/tflint-ruleset-aws" []))]⟩⟩
      ⟨⟨false, [("aws", ⟨1⟩), ("terraform", ⟨2⟩)]⟩,
        ⟨false, [("aws", host2plugin.NewClient (exec.Command "/plugins/tflint-ruleset-aws" [])),
          ("terraform",
            host2plugin.NewClient
              (exec.Command "/usr/bin/tofulint" ["--act-as-bundled-plugin"]))]⟩⟩
      (by decide) (by decide) name).1⟩

/-! ## `strings.Replace` as a replacement of every occurrence -/

theorem strings.joinChars_cons (sep t : List Char) (rest : List (List Char))
    (h : rest ≠ []) :
    strings.joinChars sep (t :: rest) = t ++ sep ++ strings.joinChars sep rest := by
  cases rest with
  | nil => exact absurd rfl h
  | cons u rest => rfl

theorem strings.replaceFrom_skip (old new : List Char) :
    ∀ (k : Nat) (s : List Char),
      strings.replaceFrom old new k s = strings.replaceFrom old new 0 (s.drop k)
  | 0, s => by simp
  | k + 1, [] => by simp [strings.replaceFrom]
  | k + 1, c :: cs => by
    rw [List.drop_succ_cons, ← strings.replaceFrom_skip old new k cs]
    simp [strings.replaceFrom]

theorem strings.replaceFrom_old_append (old new : List Char) (hold : old ≠ [])
    (rest : List Char) :
    strings.replaceFrom old new 0 (old ++ rest) = new ++ strings.replaceFrom old new 0 rest := by
  cases old with
  | nil => exact absurd rfl hold
  | cons c o =>
    rw [List.cons_append, strings.replaceFrom_zero_cons, if_pos (by simp),
      strings.replaceFrom_skip]
    simp

/-- The scan of `strings.Replace` cuts the text into pieces without an
occurrence of `old`, separated by `old`, and joins the pieces with `new`. -/
theorem strings.replaceFrom_segments (old new : List Char) (hold : old ≠ []) :
    ∀ (n : Nat) (s : List Char), s.length ≤ n →
      ∃ segs : List (List Char), segs ≠ [] ∧ s = strings.joinChars old segs ∧
        strings.replaceFrom old new 0 s = strings.joinChars new segs ∧
        ∀ seg ∈ segs, ¬ old <:+: seg
  | _, [], _ => ⟨[[]], by simp, rfl, by simp [strings.replaceFrom, strings.joinChars], by
      intro seg hseg
      simp only [List.mem_singleton] at hseg
      subst hseg
      simpa using hold⟩
  | 0, c :: cs, h => by simp at h
  | n + 1, c :: cs, h => by
    by_cases hp : old <+: c :: cs
    · obtain ⟨rest, hrest⟩ := hp
      have hlen : rest.length ≤ n := by
        have h1 := congrArg List.length hrest
        have h2 : 0 < old.length := List.length_pos.2 hold
        simp only [List.length_append, List.length_cons] at h1 h
        omega
      obtain ⟨segs, hne, hs, hr, hno⟩ := strings.replaceFrom_segments old new hold n rest hlen
      refine ⟨[] :: segs, by simp, ?_, ?_, ?_⟩
      · rw [strings.joinChars_cons _ _ _ hne, ← hs, ← hrest]
        simp
      · rw [strings.joinChars_cons _ _ _ hne, ← hr, ← hrest,
          strings.replaceFrom_old_append old new hold]
        simp
      · intro seg hseg
        rcases List.mem_cons.1 hseg with rfl | hseg1
        · simpa using hold
        · exact hno seg hseg1
    · have hlen : cs.length ≤ n := by
        simp only [List.length_cons] at h
        omega
      obtain ⟨segs, hne, hs, hr, hno⟩ := strings.replaceFrom_segments old new hold n cs hlen
      cases segs with
      | nil => exact absurd rfl hne
      | cons t rest =>
        refine ⟨(c :: t) :: rest, by simp, ?_, ?_, ?_⟩
        · cases rest with
          | nil =>
            simp only [strings.joinChars] at hs ⊢
            rw [hs]
          | cons u rest =>
            simp only [strings.joinChars] at hs ⊢
            rw [hs]
            simp
        · rw [strings.replaceFrom_zero_cons, if_neg hp, hr]
          cases rest with
          | nil => simp [strings.joinChars]
          | cons u rest => simp [strings.joinChars]
        · intro seg hseg
          rcases List.mem_cons.1 hseg with rfl | hseg1
          · rw [List.infix_cons_iff]
            rintro (hpre | hin)
            · apply hp
              refine hpre.trans ?_
              rw [hs]
              cases rest with
              | nil => exact List.prefix_refl _
              | cons u rest =>
                simp only [strings.joinChars, List.append_assoc]
                exact (List.prefix_cons_inj c).2 (List.prefix_append _ _)
            · exact hno t (List.mem_cons_self _ _) hin
          · exact hno seg (List.mem_cons_of_mem _ hseg1)

theorem prefix_of_append_eq {α : Type} {old y b m : List α} (h : old ++ b = y ++ m)
    (hlen : y.length ≤ old.length) : ∃ z, old = y ++ z := by
  have h1 : y <+: old ++ b := ⟨m, h.symm⟩
  have h2 : old <+: old ++ b := List.prefix_append _ _
  obtain ⟨z, hz⟩ := List.prefix_of_prefix_length_le h1 h2 hlen
  exact ⟨z, hz.symm⟩

/-- When no proper end of `old` is a start of `old`, every occurrence of
`old` in a text made of pieces without `old`, joined by `old`, is one of the
separators. -/
theorem strings.occurrence_is_separator (old : List Char) (hold : old ≠ [])
    (hborder : ∀ u v z : List Char, u ≠ [] → v ≠ [] → old = u ++ v → old = v ++ z → False) :
    ∀ (segs : List (List Char)), (∀ seg ∈ segs, ¬ old <:+: seg) →
      ∀ a b : List Char, strings.joinChars old segs = a ++ old ++ b →
        ∃ s1 s2 : List (List Char), s1 ≠ [] ∧ s2 ≠ [] ∧ segs = s1 ++ s2 ∧
          a = strings.joinChars old s1 ∧ b = strings.joinChars old s2
  | [], _, a, b, h => by
    have h1 := congrArg List.length h
    have h2 : 0 < old.length := List.length_pos.2 hold
    simp only [strings.joinChars, List.length_nil, List.length_append] at h1
    omega
  | [t], hno, a, b, h => by
    exfalso
    apply hno t (List.mem_singleton_self _)
    simp only [strings.joinChars] at h
    exact ⟨a, b, h.symm⟩
  | t :: u :: rest, hno, a, b, h => by
    have hnot : ¬ old <:+: t := hno t (List.mem_cons_self _ _)
    have hrest : ∀ seg ∈ u :: rest, ¬ old <:+: seg :=
      fun seg hseg => hno seg (List.mem_cons_of_mem _ hseg)
    have hequal : a = t → b = strings.joinChars old (u :: rest) →
        ∃ s1 s2 : List (List Char), s1 ≠ [] ∧ s2 ≠ [] ∧ t :: u :: rest = s1 ++ s2 ∧
          a = strings.joinChars old s1 ∧ b = strings.joinChars old s2 :=
      fun ha hb => ⟨[t], u :: rest, by simp, by simp, rfl, ha, hb⟩
    have hlater : ∀ x : List Char, a = t ++ old ++ x →
        strings.joinChars old (u :: rest) = x ++ old ++ b →
        ∃ s1 s2 : List (List Char), s1 ≠ [] ∧ s2 ≠ [] ∧ t :: u :: rest = s1 ++ s2 ∧
          a = strings.joinChars old s1 ∧ b = strings.joinChars old s2 := by
      intro x ha hx
      obtain ⟨s1, s2, h1, h2, h3, h4, h5⟩ :=
        strings.occurrence_is_separator old hold hborder (u :: rest) hrest x b hx
      refine ⟨t :: s1, s2, by simp, h2, by rw [h3]; rfl, ?_, h5⟩
      rw [strings.joinChars_cons _ _ _ h1, ← h4, ha]
    have hM : strings.joinChars old (t :: u :: rest) =
        t ++ (old ++ strings.joinChars old (u :: rest)) := by
      simp only [strings.joinChars, List.append_assoc]
    rw [hM, List.append_assoc] at h
    have hshort : ∀ u1 v1 : List Char, old = u1 ++ v1 → v1.length ≤ old.length := by
      intro u1 v1 huv
      have := congrArg List.length huv
      simp only [List.length_append] at this
      omega
    rcases List.append_eq_append_iff.1 h with ⟨a', ha', hb'⟩ | ⟨c', hc', hd'⟩
    · -- the occurrence starts at the end of the first piece or after it
      rcases List.append_eq_append_iff.1 hb' with ⟨y, hy, hm⟩ | ⟨x, hx, hm⟩
      · exact hlater y (by rw [ha', hy, List.append_assoc]) (by rw [hm, List.append_assoc])
      · by_cases ha0 : a' = []
        · rw [ha0, List.nil_append] at hx
          rw [ha0, List.append_nil] at ha'
          rw [← hx] at hm
          exact hequal ha' (List.append_cancel_left hm)
        · by_cases hx0 : x = []
          · rw [hx0, List.append_nil] at hx
            rw [hx0, List.nil_append] at hm
            exact hlater [] (by rw [ha', ← hx, List.append_nil])
              (by rw [← hm, List.nil_append])
          · exfalso
            obtain ⟨z, hz⟩ := prefix_of_append_eq hm (hshort a' x hx)
            exact hborder a' x z ha0 hx0 hx hz
    · -- the occurrence starts inside the first piece
      by_cases hc0 : c' = []
      · rw [hc0, List.append_nil] at hc'
        rw [hc0, List.nil_append] at hd'
        exact hequal hc'.symm (List.append_cancel_left hd')
      · exfalso
        rcases List.append_eq_append_iff.1 hd' with ⟨y, hy, hm⟩ | ⟨x, hx, hm⟩
        · apply hnot
          exact ⟨a, y, by rw [hc', hy, List.append_assoc]⟩
        · by_cases hx0 : x = []
          · rw [hx0, List.append_nil] at hx
            apply hnot
            exact ⟨a, [], by rw [hc', ← hx, List.append_nil]⟩
          · obtain ⟨z, hz⟩ := prefix_of_append_eq hm (hshort c' x hx)
            exact hborder c' x z hc0 hx0 hx hz

/-- No proper end of the search string is a start of it: two occurrences of
the search string in a text do not overlap. -/
theorem search_no_border (u v z : List Char) (hu : u ≠ []) (hv : v ≠ [])
    (huv : search.data = u ++ v) (hvz : search.data = v ++ z) : False := by
  have hall : ∀ k < 37, 0 < k → ¬ (search.data.drop k <+: search.data) := by decide
  have hlen : u.length + v.length = 37 := by
    have := congrArg List.length huv
    simpa [search_data] using this.symm
  have hdrop : search.data.drop u.length = v := by
    rw [huv, List.drop_left]
  have hu0 : 0 < u.length := List.length_pos.2 hu
  have hv0 : 0 < v.length := List.length_pos.2 hv
  apply hall u.length (by omega) hu0
  rw [hdrop]
  exact ⟨z, hvz.symm⟩

/-- C25: for an error whose message contains the phrase "Incompatible API
version with plugin.", the message is a sequence of at least two pieces
separated by the phrase, where no piece contains the phrase and every
occurrence of the phrase in the message is one of the separators; and
`pluginClientError` returns a new error whose message is the same pieces, in
the same order, separated by the sentence `TofuLint is not compatible with
this version of the <name as Go quotes it> plugin. A newer TofuLint or plugin
version may be required.` -/
theorem pluginClientError_replaces_every_occurrence (w : World) (err : GoError)
    (config : PluginConfig) (h : strings.Contains err.Error search = true) :
    ∃ segs : List (List Char), 2 ≤ segs.length ∧
      err.Error.data = strings.joinChars search.data segs ∧
      (∀ seg ∈ segs, ¬ search.data <:+: seg) ∧
      (∀ a b : List Char, err.Error.data = a ++ search.data ++ b →
        ∃ s1 s2 : List (List Char), s1 ≠ [] ∧ s2 ≠ [] ∧ segs = s1 ++ s2 ∧
          a = strings.joinChars search.data s1 ∧ b = strings.joinChars search.data s2) ∧
      pluginClientError w (some err) config =
        some (GoError.New ⟨strings.joinChars
          ("TofuLint is not compatible with this version of the " ++
            strconv.Quote w.isPrintWide config.Name ++
            " plugin. A newer TofuLint or plugin version may be required.").data segs⟩) := by
  have hold : search.data ≠ [] := by rw [search_data]; simp
  obtain ⟨segs, hne, hs, hr, hno⟩ := strings.replaceFrom_segments search.data
    (replacement w config.Name).data hold err.Error.data.length err.Error.data (Nat.le_refl _)
  rw [strings.Contains, strings.containsChars_iff] at h
  refine ⟨segs, ?_, hs, hno, ?_, ?_⟩
  · cases segs with
    | nil => exact absurd rfl hne
    | cons t rest =>
      cases rest with
      | nil =>
        exfalso
        apply hno t (List.mem_singleton_self _)
        simp only [strings.joinChars] at hs
        rw [← hs]
        exact h
      | cons u rest => simp
  · intro a b hab
    rw [hs] at hab
    exact strings.occurrence_is_separator search.data hold search_no_border segs hno a b hab
  · have h2 : strings.Contains err.Error search = true := by
      rw [strings.Contains, strings.containsChars_iff]
      exact h
    rw [pluginClientError_of_contains w err config h2]
    have hdata := Replace_search_data w config.Name err.Error
    rw [hr] at hdata
    have heq : strings.Replace err.Error search (replacement w config.Name) (-1) =
        ⟨strings.joinChars (replacement w config.Name).data segs⟩ := by
      rw [← hdata]
    rw [heq]
    rfl

theorem pluginClientError_replaces_every_occurrence_witness :
    strings.Contains
        (GoError.New
          "Incompatible API version with plugin. Plugin version: 10, Client versions: [11]").Error
        search = true ∧
      (∃ segs : List (List Char), 2 ≤ segs.length ∧
        (GoError.New
          "Incompatible API version with plugin. Plugin version: 10, Client versions: [11]").Error.data
          = strings.joinChars search.data segs ∧
        (∀ seg ∈ segs, ¬ search.data <:+: seg) ∧
        (∀ a b : List Char,
          (GoError.New
            "Incompatible API version with plugin. Plugin version: 10, Client versions: [11]").Error.data
            = a ++ search.data ++ b →
          ∃ s1 s2 : List (List Char), s1 ≠ [] ∧ s2 ≠ [] ∧ segs = s1 ++ s2 ∧
            a = strings.joinChars search.data s1 ∧ b = strings.joinChars search.data s2) ∧
        pluginClientError linuxWorld
            (some (GoError.New
              "Incompatible API version with plugin. Plugin version: 10, Client versions: [11]"))
            ⟨"aws", true, "", ""⟩ =
          some (GoError.New ⟨strings.joinChars
            ("TofuLint is not compatible with this version of the " ++
              strconv.Quote linuxWorld.isPrintWide (⟨"aws", true, "", ""⟩ : PluginConfig).Name ++
              " plugin. A newer TofuLint or plugin version may be required.").data segs⟩)) ∧
      pluginClientError linuxWorld
          (some (GoError.New
            "Incompatible API version with plugin. Plugin version: 10, Client versions: [11]"))
          ⟨"aws", true, "", ""⟩ =
        some (GoError.New ("TofuLint is not compatible with this version of the \"aws\" plugin. " ++
          "A newer TofuLint or plugin version may be required. " ++
          "Plugin version: 10, Client versions: [11]")) :=
  ⟨by decide,
    pluginClientError_replaces_every_occurrence linuxWorld
      (GoError.New
        "Incompatible API version with plugin. Plugin version: 10, Client versions: [11]")
      ⟨"aws", true, "", ""⟩ (by decide),
    by decide⟩

end TofuLint
